import Mathlib

/-!
# persysctl: certificate lifecycle manager and client construction

A shallow embedding of `internal/auth/cert.go` and of `NewClient` in
`internal/client/client.go`.

* Go strings and `[]byte` are byte sequences (`List UInt8`).
* The filesystem, the process umask and the effects performed so far (the
  `trace`) form the `World`, which every effectful function threads explicitly.
* Deterministic standard-library functions the code calls (`encoding/pem`,
  `crypto/x509`, `crypto/tls`, `encoding/json`) are fields of `Lib`; results
  that depend on the outside world during one call (clock, random key
  generation, the HTTP exchange) are fields of `Ext`.
* A Go `error` result is `Option GoError` (`none` is `nil`); a `(T, error)`
  result is `Except GoError T`.
-/

namespace Persys

/-! ## Strings, errors -/

/-- Go `string` / `[]byte`: a sequence of bytes. -/
abbrev GoString := List UInt8

/-- The bytes (UTF-8) of a string literal of the source. -/
def str (s : String) : GoString := s.toList.flatMap String.utf8EncodeChar

/-- Go `error` value, identified by its message. -/
structure GoError where
  msg : GoString
deriving DecidableEq, Repr

/-- Result of `fmt.Errorf(format + "%s", arg)` / `fmt.Errorf(format + "%w", err)`
with the verb last: the literal text followed by the argument. -/
def errorf (format : String) (arg : GoString) : GoError := ⟨str format ++ arg⟩

/-- Go slice expression `s[:n]` on a string: `none` is the run-time panic
"slice bounds out of range", raised when `n > len(s)`. -/
def sliceTo (s : GoString) (n : Nat) : Option GoString :=
  if n ≤ s.length then some (s.take n) else none

/-! ## Standard-library data -/

/-- Block of `encoding/pem`. -/
structure PemBlock where
  blockType : GoString
  bytes : GoString
deriving DecidableEq, Repr

/-- Certificate of `crypto/x509`, with the fields of the validity window. -/
structure Certificate where
  NotBefore : Int
  NotAfter : Int
  Raw : GoString
deriving DecidableEq, Repr

/-- Private key of `crypto/rsa`. -/
structure PrivateKey where
  bits : Nat
  material : GoString
deriving DecidableEq, Repr

/-- Template of `x509.CertificateRequest`: the subject `pkix.Name`. -/
structure CertificateRequest where
  CommonName : GoString
  Organization : List GoString
deriving DecidableEq, Repr

/-- Certificate of `crypto/tls`: a chain with its private key. -/
structure TLSCertificate where
  Certificate : List GoString
  PrivateKey : GoString
deriving DecidableEq, Repr

/-- Config of `crypto/tls`. `RootCAs = none` is the nil pool, for which Go
falls back to the system trust store. -/
structure TLSConfig where
  Certificates : List TLSCertificate
  RootCAs : Option (List Certificate)
  MinVersion : Nat
deriving DecidableEq, Repr

/-- Constant `tls.VersionTLS12`. -/
def VersionTLS12 : Nat := 0x0303

/-- Constant `time.Second`, in nanoseconds (the unit of `time.Duration`). -/
def Second : Nat := 1000000000

/-- Client of `net/http` with its transport's TLS configuration. -/
structure HTTPClient where
  TLSClientConfig : TLSConfig
  Timeout : Nat
deriving DecidableEq, Repr

/-- Wire type `cfsslSignRequest` (cert.go:113). -/
structure cfsslSignRequest where
  CertificateRequest : GoString
deriving DecidableEq, Repr

/-- Inner struct `Result` of `cfsslSignResponse`. -/
structure cfsslSignResult where
  Certificate : GoString
deriving DecidableEq, Repr

/-- Wire type `cfsslSignResponse` (cert.go:116). -/
structure cfsslSignResponse where
  Success : Bool
  Result : cfsslSignResult
deriving DecidableEq, Repr

/-- One call of `httpClient.Post(url, contentType, body)`. -/
structure HTTPPost where
  client : HTTPClient
  url : GoString
  contentType : GoString
  body : GoString
deriving DecidableEq, Repr

/-- Deterministic standard-library functions used by the code. -/
structure Lib where
  /-- Function `pem.Decode`: the first block, `none` when there is none. -/
  pemDecode : GoString → Option PemBlock
  /-- Function `pem.EncodeToMemory`. -/
  pemEncodeToMemory : PemBlock → GoString
  /-- Function `x509.ParseCertificate`. -/
  parseCertificate : GoString → Except GoError Certificate
  /-- Function `x509.MarshalPKCS1PrivateKey`. -/
  marshalPKCS1PrivateKey : PrivateKey → GoString
  /-- Certificates that `(*CertPool).AppendCertsFromPEM` parses out of its argument. -/
  certsFromPEM : GoString → List Certificate
  /-- Function `tls.X509KeyPair`. -/
  x509KeyPair : GoString → GoString → Except GoError TLSCertificate
  /-- Encoding of a Go string as a JSON string literal by `json.Marshal`
  (quotes and escapes included). -/
  jsonString : GoString → GoString
  /-- Function `json.Unmarshal` at `cfsslSignResponse`, whose struct tags name
  the keys `success`, `result` and `certificate` (an absent key keeps the
  zero value of its field). -/
  jsonUnmarshal : GoString → Except GoError cfsslSignResponse

/-- Results supplied by the outside world during one call. -/
structure Ext where
  /-- Value of `time.Now()`. -/
  now : Int
  /-- Result of `rsa.GenerateKey(rand.Reader, bits)`. -/
  generateKey : Nat → Except GoError PrivateKey
  /-- Result of `x509.CreateCertificateRequest(rand.Reader, template, key)`. -/
  createCertificateRequest : CertificateRequest → PrivateKey → Except GoError GoString
  /-- Result of `httpClient.Post`: a transport error, or the bytes that
  `io.ReadAll(resp.Body)` yields. -/
  post : HTTPPost → Except GoError GoString

/-- Function `json.Marshal` at `cfsslSignRequest`: one object with the one key
of the struct tag, `certificate_request`. -/
def jsonMarshal (lib : Lib) (payload : cfsslSignRequest) : GoString :=
  str "\x7b\"certificate_request\":" ++ lib.jsonString payload.CertificateRequest ++ str "\x7d"

/-! ## The world: filesystem and effect trace -/

/-- Regular file: content and permission bits. -/
structure File where
  data : GoString
  mode : Nat
deriving DecidableEq, Repr

/-- How `os.WriteFile` on a path goes wrong, if it does: `OpenFile` fails
(nothing is touched), or `Write`/`Close` fails after `written` bytes. -/
inductive WriteFault where
  | none
  | openFails (e : GoError)
  | writeFails (e : GoError) (written : Nat)
deriving DecidableEq, Repr

/-- Effects the program performs. -/
inductive Event where
  | stat (path : GoString)
  | readFile (path : GoString)
  | writeFile (path : GoString) (data : GoString) (perm : Nat)
  | httpPost (req : HTTPPost)
deriving DecidableEq, Repr

/-- Whether an effect is a file write. -/
def Event.isWrite : Event → Bool
  | .writeFile _ _ _ => true
  | _ => false

/-- Whether an effect is a network call. -/
def Event.isNetwork : Event → Bool
  | .httpPost _ => true
  | _ => false

/-- Filesystem as the process sees it, and the effects performed so far. -/
structure World where
  files : GoString → Option File
  umask : Nat
  readFault : GoString → Option GoError
  writeFault : GoString → WriteFault
  trace : List Event

/-- Append an effect to the trace. -/
def World.log (w : World) (e : Event) : World := { w with trace := w.trace ++ [e] }

/-- Error of a system call on a missing path. -/
def errNotExist (path : GoString) : GoError :=
  ⟨path ++ str ": no such file or directory"⟩

/-- Function `os.Stat`, result discarded but for the error. -/
def osStat (path : GoString) (w : World) : Option GoError × World :=
  match w.files path with
  | some _ => (none, w.log (.stat path))
  | none => (some (errNotExist path), w.log (.stat path))

/-- Function `os.ReadFile`. -/
def osReadFile (path : GoString) (w : World) : Except GoError GoString × World :=
  match w.files path with
  | none => (.error (errNotExist path), w.log (.readFile path))
  | some f =>
    match w.readFault path with
    | some e => (.error e, w.log (.readFile path))
    | none => (.ok f.data, w.log (.readFile path))

/-- Mode of a file created with `perm` under `umask`: `perm &^ umask`. -/
def createMode (perm umask : Nat) : Nat := perm &&& (0o777 ^^^ (umask &&& 0o777))

/-- The file at `path` after `OpenFile(path, O_WRONLY|O_CREATE|O_TRUNC, perm)`
followed by a write of `data`: an existing file keeps its mode, a new one is
created with `perm` (before umask). -/
def World.store (w : World) (path data : GoString) (perm : Nat) : World :=
  { w with files := fun q =>
      if q = path then
        some { data := data
               mode := match w.files path with
                 | some f => f.mode
                 | none => createMode perm w.umask }
      else w.files q }

/-- Function `os.WriteFile`: "If the file does not exist, WriteFile creates it
with permissions perm (before umask); otherwise WriteFile truncates it before
writing, without changing permissions." -/
def osWriteFile (path data : GoString) (perm : Nat) (w : World) : Option GoError × World :=
  match w.writeFault path with
  | .openFails e => (some e, w.log (.writeFile path data perm))
  | .writeFails e n => (some e, (w.log (.writeFile path data perm)).store path (data.take n) perm)
  | .none => (none, (w.log (.writeFile path data perm)).store path data perm)

/-- Method `(*http.Client).Post` followed by `io.ReadAll` of the body. -/
def httpPost (ext : Ext) (client : HTTPClient) (url contentType body : GoString) (w : World) :
    Except GoError GoString × World :=
  (ext.post ⟨client, url, contentType, body⟩, w.log (.httpPost ⟨client, url, contentType, body⟩))

/-! ## internal/auth/cert.go -/

/-- Type `CertificateManager` (cert.go:19). -/
structure CertificateManager where
  CACertPath : GoString
  CertPath : GoString
  KeyPath : GoString
  CFSSLApiURL : GoString
  CommonName : GoString
  Organization : GoString
deriving DecidableEq, Repr

/-- Function `NewCertificateManager` (cert.go:28). -/
def NewCertificateManager (caCertPath certPath keyPath cfsslApiURL commonName organization : GoString) :
    CertificateManager :=
  { CACertPath := caCertPath, CertPath := certPath, KeyPath := keyPath,
    CFSSLApiURL := cfsslApiURL, CommonName := commonName, Organization := organization }

/-- Method `certAndKeyExist` (cert.go:68). -/
def certAndKeyExist (cm : CertificateManager) (w : World) : Bool × World :=
  match osStat cm.CertPath w with
  | (some _, w1) => (false, w1)
  | (none, w1) =>
    match osStat cm.KeyPath w1 with
    | (some _, w2) => (false, w2)
    | (none, w2) => (true, w2)

/-- Method `isCertValid` (cert.go:78). -/
def isCertValid (lib : Lib) (ext : Ext) (cm : CertificateManager) (w : World) :
    Except GoError Bool × World :=
  match osReadFile cm.CertPath w with
  | (.error err, w1) => (.error err, w1)
  | (.ok certPEM, w1) =>
    match lib.pemDecode certPEM with
    | none => (.error (errorf "failed to decode cert PEM" []), w1)
    | some block =>
      match lib.parseCertificate block.bytes with
      | .error err => (.error err, w1)
      | .ok cert => (.ok (decide (ext.now < cert.NotAfter)), w1)

/-- Method `generateKeyAndCSR` (cert.go:94). -/
def generateKeyAndCSR (lib : Lib) (ext : Ext) (cm : CertificateManager) :
    Except GoError (PrivateKey × GoString) :=
  match ext.generateKey 2048 with
  | .error err => .error err
  | .ok key =>
    let csrTemplate : CertificateRequest :=
      { CommonName := cm.CommonName, Organization := [cm.Organization] }
    match ext.createCertificateRequest csrTemplate key with
    | .error err => .error err
    | .ok csrDER =>
      let csrPEM := lib.pemEncodeToMemory
        { blockType := str "CERTIFICATE REQUEST", bytes := csrDER }
      .ok (key, csrPEM)

/-- Method `requestCertFromCFSSL` (cert.go:123). -/
def requestCertFromCFSSL (lib : Lib) (ext : Ext) (cm : CertificateManager) (csrPEM : GoString)
    (w : World) : Except GoError GoString × World :=
  match osReadFile cm.CACertPath w with
  | (.error err, w1) => (.error (errorf "failed to read CA cert: " err.msg), w1)
  | (.ok caCert, w1) =>
    -- caCertPool := x509.NewCertPool(); caCertPool.AppendCertsFromPEM(caCert)
    let caCertPool : List Certificate := [] ++ lib.certsFromPEM caCert
    if (lib.certsFromPEM caCert).isEmpty then
      (.error (errorf "failed to append CA cert to pool" []), w1)
    else
      let tlsConfig : TLSConfig :=
        { Certificates := [], RootCAs := some caCertPool, MinVersion := VersionTLS12 }
      let httpClient : HTTPClient := { TLSClientConfig := tlsConfig, Timeout := 10 * Second }
      let payload : cfsslSignRequest := { CertificateRequest := csrPEM }
      let data := jsonMarshal lib payload
      match httpPost ext httpClient (cm.CFSSLApiURL ++ str "/api/v1/cfssl/sign")
          (str "application/json") data w1 with
      | (.error err, w2) => (.error (errorf "failed to send request to CFSSL: " err.msg), w2)
      | (.ok body, w2) =>
        match lib.jsonUnmarshal body with
        | .error err => (.error (errorf "failed to parse CFSSL response: " err.msg), w2)
        | .ok cfsslResp =>
          if !cfsslResp.Success then
            (.error (errorf "CFSSL sign failed: " body), w2)
          else
            (.ok cfsslResp.Result.Certificate, w2)

/-- Lines 47-65 of `EnsureCertificate`: generate key and CSR, request the
certificate, store certificate and key. -/
def regenerate (lib : Lib) (ext : Ext) (cm : CertificateManager) (w : World) :
    Option GoError × World :=
  match generateKeyAndCSR lib ext cm with
  | .error err => (some err, w)
  | .ok (key, csr) =>
    match requestCertFromCFSSL lib ext cm csr w with
    | (.error err, w1) => (some err, w1)
    | (.ok certPEM, w1) =>
      match osWriteFile cm.CertPath certPEM 0o600 w1 with
      | (some err, w2) => (some err, w2)
      | (none, w2) =>
        let keyPEM := lib.pemEncodeToMemory
          { blockType := str "RSA PRIVATE KEY", bytes := lib.marshalPKCS1PrivateKey key }
        match osWriteFile cm.KeyPath keyPEM 0o600 w2 with
        | (some err, w3) => (some err, w3)
        | (none, w3) => (none, w3)

/-- Method `EnsureCertificate` (cert.go:39). -/
def EnsureCertificate (lib : Lib) (ext : Ext) (cm : CertificateManager) (w : World) :
    Option GoError × World :=
  match certAndKeyExist cm w with
  | (true, w1) =>
    match isCertValid lib ext cm w1 with
    | (.ok true, w2) => (none, w2)
    | (_, w2) => regenerate lib ext cm w2
  | (false, w1) => regenerate lib ext cm w1

/-- Method `LoadCACert` (cert.go:168). -/
def LoadCACert (cm : CertificateManager) (w : World) : Except GoError GoString × World :=
  osReadFile cm.CACertPath w

/-- Function `tls.LoadX509KeyPair`: read both files, then `tls.X509KeyPair`. -/
def tlsLoadX509KeyPair (lib : Lib) (certFile keyFile : GoString) (w : World) :
    Except GoError TLSCertificate × World :=
  match osReadFile certFile w with
  | (.error err, w1) => (.error err, w1)
  | (.ok certPEMBlock, w1) =>
    match osReadFile keyFile w1 with
    | (.error err, w2) => (.error err, w2)
    | (.ok keyPEMBlock, w2) => (lib.x509KeyPair certPEMBlock keyPEMBlock, w2)

/-- Method `GetTLSConfig` (cert.go:173). -/
def GetTLSConfig (lib : Lib) (cm : CertificateManager) (w : World) :
    Except GoError TLSConfig × World :=
  match tlsLoadX509KeyPair lib cm.CertPath cm.KeyPath w with
  | (.error err, w1) => (.error (errorf "failed to load client certificate: " err.msg), w1)
  | (.ok cert, w1) =>
    match LoadCACert cm w1 with
    | (.error err, w2) => (.error (errorf "failed to load CA certificate: " err.msg), w2)
    | (.ok caCert, w2) =>
      let caCertPool : List Certificate := [] ++ lib.certsFromPEM caCert
      if (lib.certsFromPEM caCert).isEmpty then
        (.error (errorf "failed to append CA certificate to pool" []), w2)
      else
        (.ok { Certificates := [cert], RootCAs := some caCertPool, MinVersion := VersionTLS12 }, w2)

/-! ## internal/config/config.go, internal/client/client.go -/

/-- Type `Config` (config.go:16). -/
structure Config where
  APIEndpoint : GoString
  PrivateKey : Option PrivateKey
  PublicKeyPEM : GoString
  CACertPath : GoString
  CertPath : GoString
  KeyPath : GoString
  CFSSLApiURL : GoString
  CommonName : GoString
  Organization : GoString
deriving DecidableEq, Repr

/-- Type `Client` (client.go:15); the `http.Client` built by `NewClient` sets
no timeout. -/
structure Client where
  cfg : Config
  httpClient : HTTPClient
  certMgr : CertificateManager
deriving DecidableEq, Repr

/-- Result of a call that may return a value, return an error, or panic. -/
inductive Outcome (α : Type) where
  | ok (a : α)
  | error (e : GoError)
  | panic
deriving DecidableEq, Repr

/-- Whether the outcome is a returned error. -/
def Outcome.isError {α : Type} : Outcome α → Bool
  | .error _ => true
  | _ => false

/-- Condition of the `if` at client.go:29,
`cfg.APIEndpoint != "" && cfg.APIEndpoint[:8] != "https://"`,
with the short-circuit of `&&`; `none` is a run-time panic. -/
def schemeRejected (apiEndpoint : GoString) : Option Bool :=
  if apiEndpoint ≠ [] then
    match sliceTo apiEndpoint 8 with
    | none => none
    | some head => some (decide (head ≠ str "https://"))
  else some false

/-- Lines 32-64 of `NewClient`: certificate manager, `EnsureCertificate`,
`GetTLSConfig`, HTTP client. -/
def buildClient (lib : Lib) (ext : Ext) (cfg : Config) (w : World) : Outcome Client × World :=
  let certMgr := NewCertificateManager cfg.CACertPath cfg.CertPath cfg.KeyPath
    cfg.CFSSLApiURL cfg.CommonName cfg.Organization
  match EnsureCertificate lib ext certMgr w with
  | (some err, w1) => (.error (errorf "failed to ensure certificate: " err.msg), w1)
  | (none, w1) =>
    match GetTLSConfig lib certMgr w1 with
    | (.error err, w2) => (.error (errorf "failed to get TLS config: " err.msg), w2)
    | (.ok tlsConfig, w2) =>
      let httpClient : HTTPClient := { TLSClientConfig := tlsConfig, Timeout := 0 }
      (.ok { cfg := cfg, httpClient := httpClient, certMgr := certMgr }, w2)

/-- Function `NewClient` (client.go:27). -/
def NewClient (lib : Lib) (ext : Ext) (cfg : Config) (w : World) : Outcome Client × World :=
  match schemeRejected cfg.APIEndpoint with
  | none => (.panic, w)
  | some true =>
    (.error (errorf "APIEndpoint must start with https:// when using mTLS, got: "
      cfg.APIEndpoint), w)
  | some false => buildClient lib ext cfg w

/-- Successive calls of `EnsureCertificate` on the same manager, one per
element of `exts` (the outside world's answers during that call). -/
def ensureRepeatedly (lib : Lib) (cm : CertificateManager) :
    List Ext → World → List (Option GoError) × World
  | [], w => ([], w)
  | ext :: rest, w =>
    ((EnsureCertificate lib ext cm w).1 ::
        (ensureRepeatedly lib cm rest (EnsureCertificate lib ext cm w).2).1,
      (ensureRepeatedly lib cm rest (EnsureCertificate lib ext cm w).2).2)

/-- Effects of the credential state check when both files exist. -/
def checkEvents (cm : CertificateManager) : List Event :=
  [.stat cm.CertPath, .stat cm.KeyPath, .readFile cm.CertPath]

/-- Two worlds with the same filesystem, umask and faults (the traces may
differ). -/
def World.sameFS (w w2 : World) : Prop :=
  w.files = w2.files ∧ w.umask = w2.umask ∧ w.readFault = w2.readFault ∧
    w.writeFault = w2.writeFault

/-- The state in which the check at the head of `EnsureCertificate` accepts
the credential on disk: both files exist and the certificate file reads,
PEM-decodes and parses to a certificate whose NotAfter is after the current
time. -/
def credentialValid (lib : Lib) (ext : Ext) (cm : CertificateManager) (w : World) : Prop :=
  ∃ (fc fk : File) (block : PemBlock) (cert : Certificate),
    w.files cm.CertPath = some fc ∧ w.files cm.KeyPath = some fk ∧
    w.readFault cm.CertPath = none ∧ lib.pemDecode fc.data = some block ∧
    lib.parseCertificate block.bytes = .ok cert ∧ ext.now < cert.NotAfter

/-- The call `httpClient.Post` that `requestCertFromCFSSL` makes for the CSR
`csrPEM` when the CA file holds `caCert`. -/
def signingPost (lib : Lib) (cm : CertificateManager) (caCert csrPEM : GoString) : HTTPPost :=
  { client :=
      { TLSClientConfig :=
          { Certificates := [], RootCAs := some (lib.certsFromPEM caCert),
            MinVersion := VersionTLS12 },
        Timeout := 10 * Second },
    url := cm.CFSSLApiURL ++ str "/api/v1/cfssl/sign",
    contentType := str "application/json",
    body := jsonMarshal lib { CertificateRequest := csrPEM } }

/-- The PEM text that `EnsureCertificate` writes to the key file for `key`. -/
def keyPEMOf (lib : Lib) (key : PrivateKey) : GoString :=
  lib.pemEncodeToMemory
    { blockType := str "RSA PRIVATE KEY", bytes := lib.marshalPKCS1PrivateKey key }

/-- The PEM text of the CSR whose DER encoding is `csrDER`. -/
def csrPEMOf (lib : Lib) (csrDER : GoString) : GoString :=
  lib.pemEncodeToMemory { blockType := str "CERTIFICATE REQUEST", bytes := csrDER }

/-! ## A concrete instance

A small library, outside world and filesystem on which the definitions
evaluate. A PEM text is the byte `-`, a one-byte type tag and the payload; a
certificate is the two bytes (key identifier, NotAfter); a private key is the
one byte (key identifier); a JSON response is `t` followed by the certificate,
or `f`. -/

/-- Concrete library. -/
def demoLib : Lib where
  pemDecode := fun b =>
    match b with
    | 45 :: t :: rest => some { blockType := [t], bytes := rest }
    | _ => none
  pemEncodeToMemory := fun b => 45 :: b.blockType.headD 0 :: b.bytes
  parseCertificate := fun der =>
    match der with
    | [k, na] => .ok { NotBefore := 0, NotAfter := na.toNat, Raw := [k, na] }
    | _ => .error ⟨str "x509: malformed certificate"⟩
  marshalPKCS1PrivateKey := fun key => key.material
  certsFromPEM := fun b =>
    match b with
    | [45, _, k, na] => [{ NotBefore := 0, NotAfter := na.toNat, Raw := [k, na] }]
    | _ => []
  x509KeyPair := fun certPEM keyPEM =>
    match certPEM, keyPEM with
    | [45, _, k, na], [45, _, k2] =>
      if k = k2 then .ok { Certificate := [[k, na]], PrivateKey := [k2] }
      else .error ⟨str "tls: private key does not match public key"⟩
    | _, _ => .error ⟨str "tls: failed to find any PEM data in input"⟩
  jsonString := fun s => 34 :: s ++ [34]
  jsonUnmarshal := fun body =>
    match body with
    | 116 :: cert => .ok { Success := true, Result := { Certificate := cert } }
    | 102 :: _ => .ok { Success := false, Result := { Certificate := [] } }
    | _ => .error ⟨str "invalid character"⟩

/-- Concrete outside world: the clock reads 100, key generation yields key 7,
the signing authority answers with a certificate for key 7 expiring at 200. -/
def demoExt : Ext where
  now := 100
  generateKey := fun bits => .ok { bits := bits, material := [7] }
  createCertificateRequest := fun _ key => .ok key.material
  post := fun _ => .ok [116, 45, 67, 7, 200]

/-- Concrete outside world whose signing authority refuses. -/
def demoExtRefused : Ext := { demoExt with post := fun _ => .ok [102, 33] }

/-- Concrete manager. -/
def demoCM : CertificateManager :=
  NewCertificateManager (str "ca.crt") (str "client.crt") (str "client.key")
    (str "https://ca.local:8888") (str "persysctl") (str "persys")

/-- Concrete configuration with the given endpoint. -/
def demoCfg (apiEndpoint : GoString) : Config :=
  { APIEndpoint := apiEndpoint, PrivateKey := none, PublicKeyPEM := [],
    CACertPath := str "ca.crt", CertPath := str "client.crt", KeyPath := str "client.key",
    CFSSLApiURL := str "https://ca.local:8888", CommonName := str "persysctl",
    Organization := str "persys" }

/-- World with the given client certificate and key files next to a CA file;
umask 022, no faults, empty trace. -/
def demoWorld (cert key : Option File) : World where
  files := fun p =>
    if p = str "ca.crt" then some { data := [45, 67, 1, 250], mode := 0o644 }
    else if p = str "client.crt" then cert
    else if p = str "client.key" then key
    else none
  umask := 0o022
  readFault := fun _ => none
  writeFault := fun _ => .none
  trace := []

/-- Certificate file for key 7, NotAfter 200. -/
def demoCertFile : File := { data := [45, 67, 7, 200], mode := 0o600 }

/-- Certificate file for key 7, NotAfter 50. -/
def demoExpiredCertFile : File := { data := [45, 67, 7, 50], mode := 0o600 }

/-- Key file for key 7. -/
def demoKeyFile : File := { data := [45, 82, 7], mode := 0o600 }

/-! ## cmd/workload.go -/

/-- Function `strings.Contains`: reports whether `substr` is within `s`. -/
def stringsContains (s substr : GoString) : Bool := decide (substr <:+: s)

/-- Function `strings.Index`: the index of the first instance of `sep` in
`s`, `none` (Go: -1) when there is none. -/
def stringsIndex : GoString → GoString → Option Nat
  | [], sep => if sep.isPrefixOf [] then some 0 else none
  | c :: rest, sep =>
    if sep.isPrefixOf (c :: rest) then some 0
    else (stringsIndex rest sep).map (fun m => m + 1)

/-- Loop of `strings.genSplit` for a non-empty separator: up to `cuts` times
(Go: `n - 1`), cut `s` at the first instance of `sep`; the rest is the last
piece. -/
def genSplit : Nat → GoString → GoString → List GoString
  | 0, s, _ => [s]
  | cuts + 1, s, sep =>
    match stringsIndex s sep with
    | none => [s]
    | some m => s.take m :: genSplit cuts (s.drop (m + sep.length)) sep

/-- Function `strings.Split` for a non-empty separator: `n = Count(s, sep) + 1`
pieces, that is a cut at every instance of the separator; `len(s)` bounds
their number. -/
def stringsSplit (s sep : GoString) : List GoString := genSplit s.length s sep

/-- Function `strings.SplitN` for a non-empty separator: `nil` for `n = 0`,
otherwise at most `min(n, len(s) + 1)` pieces, the last one the unsplit
remainder. -/
def stringsSplitN (s sep : GoString) (n : Nat) : List GoString :=
  if n = 0 then [] else genSplit (min n (s.length + 1) - 1) s sep

/-- Go `map[string]string`. -/
abbrev GoMap := GoString → Option GoString

/-- Map assignment `m[k] = v`. -/
def GoMap.set (m : GoMap) (k v : GoString) : GoMap :=
  fun q => if q = k then some v else m q

/-- Function `parseEnvVars` (workload.go:115). -/
def parseEnvVars (envStr : GoString) : GoMap :=
  let envVars : GoMap := fun _ => none
  let pairs := stringsSplit envStr (str ",")
  pairs.foldl (fun envVars pair =>
    let kv := stringsSplitN pair (str "=") 2
    -- if len(kv) == 2 then envVars[kv[0]] = kv[1]
    match kv with
    | [k, v] => envVars.set k v
    | _ => envVars) envVars

/-- Type `Workload` (models.go:12), the fields the schedule command reads
from its flags; `Typ` is the field `Type`. -/
structure Workload where
  ID : GoString
  Name : GoString
  Typ : GoString
  Image : GoString
  Command : GoString
  Compose : GoString
  GitRepo : GoString
  GitBranch : GoString
  GitToken : GoString
  LocalPath : GoString
  EnvVars : GoMap
  Ports : List GoString
  Volumes : List GoString
  Network : GoString
  RestartPolicy : GoString

/-- Lines 54-68 of the schedule command: the checks on the workload, each a
`cobra.CheckErr` that prints the error and exits the process; the result is
the error the command exits with, if any. -/
def scheduleValidate (workload : Workload) : Option GoError :=
  if workload.Name = [] ∨ workload.Typ = [] then
    some (errorf "id, name, and type are required" [])
  else if !stringsContains (str "docker-container,docker-compose,git-compose") workload.Typ then
    some (errorf "type must be docker-container, docker-compose, or git-compose" [])
  else if workload.Typ = str "docker-container" ∧ workload.Image = [] then
    some (errorf "image and command required for docker-container" [])
  else if workload.Typ = str "docker-compose" ∧ workload.LocalPath = [] then
    some (errorf "local-path required for docker-compose" [])
  else if workload.Typ = str "git-compose" ∧ workload.GitRepo = [] then
    some (errorf "git-repo required for git-compose" [])
  else none

/-- Lines 54-71 of the schedule command: the checks, then
`client.NewClient(config.GetConfig())`, with the configuration `cfg` that
`GetConfig` returns. -/
def scheduleRun (lib : Lib) (ext : Ext) (cfg : Config) (workload : Workload) (w : World) :
    Outcome Client × World :=
  match scheduleValidate workload with
  | some err => (.error err, w)
  | none => NewClient lib ext cfg w

/-- Workload with the given name, type and image, all other fields empty. -/
def demoWorkload (name typ image : GoString) : Workload :=
  { ID := [], Name := name, Typ := typ, Image := image, Command := [], Compose := [],
    GitRepo := [], GitBranch := str "main", GitToken := [], LocalPath := [],
    EnvVars := fun _ => none, Ports := [], Volumes := [], Network := [],
    RestartPolicy := str "no" }

/-- The error of a failing `os.WriteFile`, if any. -/
def WriteFault.err : WriteFault → Option GoError
  | .none => Option.none
  | .openFails e => Option.some e
  | .writeFails e _ => Option.some e

/-- The segments of `s` between the instances of the byte `c` are `segs`. -/
def isSegmentation (c : UInt8) (s : GoString) (segs : List GoString) : Prop :=
  segs ≠ [] ∧ (∀ g ∈ segs, c ∉ g) ∧ List.intercalate [c] segs = s

/-- The segment `g` contains the byte `c`, `k` is the text before its first
instance and `v` the text after it. -/
def bindsKey (c : UInt8) (g k v : GoString) : Prop :=
  g = k ++ c :: v ∧ c ∉ k

/-- The concrete world without client files in which every `os.WriteFile` on
`path` fails with `fault`. -/
def demoFaultyWorld (path : GoString) (fault : WriteFault) : World :=
  { demoWorld none none with writeFault := fun p => if p = path then fault else .none }

/-! ## Slicing -/

theorem str_https_length : (str "https://").length = 8 := by decide

theorem sliceTo_eq_some_iff (s t : GoString) (n : Nat) (ht : t.length = n) :
    sliceTo s n = some t ↔ t <+: s := by
  unfold sliceTo
  constructor
  · intro h
    split at h
    · simp only [Option.some.injEq] at h
      rw [← h]; exact List.take_prefix n s
    · exact absurd h (by simp)
  · intro h
    have hlen : n ≤ s.length := ht ▸ h.length_le
    rw [if_pos hlen]
    have := List.prefix_iff_eq_take.mp h
    rw [ht] at this
    rw [← this]

/-! ## C1 -/

/-- C1 (as stated, refuted): the empty endpoint does not begin with
`https://`, yet `NewClient` does not return an error for it and goes on to
`EnsureCertificate` and `GetTLSConfig`, which stat and read the credential
files. -/
theorem NewClient_empty_endpoint_not_rejected :
    ¬ (str "https://" <+: (demoCfg []).APIEndpoint) ∧
    (NewClient demoLib demoExt (demoCfg []) (demoWorld (some demoCertFile) (some demoKeyFile))).1.isError
      = false ∧
    (NewClient demoLib demoExt (demoCfg []) (demoWorld (some demoCertFile) (some demoKeyFile))).2.trace
      = [.stat (str "client.crt"), .stat (str "client.key"), .readFile (str "client.crt"),
         .readFile (str "client.crt"), .readFile (str "client.key"), .readFile (str "ca.crt")] := by
  refine ⟨by decide, by decide, by decide⟩

/-- C1 (amended): an endpoint of at least 8 bytes that does not begin with
`https://` makes `NewClient` return the scheme error with the world untouched
(no stat, read, write or network effect); for the empty endpoint the check is
skipped and for an endpoint beginning with `https://` it passes, and in both
cases `NewClient` is the rest of the construction. -/
theorem NewClient_scheme_check (lib : Lib) (ext : Ext) (cfg : Config) (w : World) :
    (8 ≤ cfg.APIEndpoint.length → ¬ (str "https://" <+: cfg.APIEndpoint) →
      NewClient lib ext cfg w =
        (.error (errorf "APIEndpoint must start with https:// when using mTLS, got: "
          cfg.APIEndpoint), w)) ∧
    (cfg.APIEndpoint = [] → NewClient lib ext cfg w = buildClient lib ext cfg w) ∧
    (str "https://" <+: cfg.APIEndpoint →
      schemeRejected cfg.APIEndpoint = some false ∧
      NewClient lib ext cfg w = buildClient lib ext cfg w) := by
  refine ⟨?_, ?_, ?_⟩
  · intro hlen hpre
    have hne : cfg.APIEndpoint ≠ [] := by
      intro h; rw [h] at hlen; simp at hlen
    have hs : sliceTo cfg.APIEndpoint 8 = some (cfg.APIEndpoint.take 8) := by
      unfold sliceTo; rw [if_pos hlen]
    have hneq : cfg.APIEndpoint.take 8 ≠ str "https://" := by
      intro h
      apply hpre
      rw [← h]; exact List.take_prefix 8 _
    simp [NewClient, schemeRejected, hne, hs, hneq]
  · intro h
    simp [NewClient, schemeRejected, h]
  · intro hpre
    have hs := (sliceTo_eq_some_iff cfg.APIEndpoint (str "https://") 8 str_https_length).mpr hpre
    have hne : cfg.APIEndpoint ≠ [] := by
      intro h; rw [h] at hpre
      have := hpre.length_le
      rw [str_https_length] at this; simp at this
    simp [NewClient, schemeRejected, hne, hs]

/-- C1 (amended), at concrete endpoints: `http://localhost:8084` is rejected
with the world untouched, the empty endpoint and `https://api.local` reach the
rest of the construction. -/
theorem NewClient_scheme_check_witness :
    NewClient demoLib demoExt (demoCfg (str "http://localhost:8084")) (demoWorld none none) =
      (.error (errorf "APIEndpoint must start with https:// when using mTLS, got: "
        (str "http://localhost:8084")), demoWorld none none) ∧
    NewClient demoLib demoExt (demoCfg []) (demoWorld none none) =
      buildClient demoLib demoExt (demoCfg []) (demoWorld none none) ∧
    (schemeRejected (str "https://api.local") = some false ∧
      NewClient demoLib demoExt (demoCfg (str "https://api.local")) (demoWorld none none) =
        buildClient demoLib demoExt (demoCfg (str "https://api.local")) (demoWorld none none)) :=
  ⟨(NewClient_scheme_check demoLib demoExt (demoCfg (str "http://localhost:8084"))
      (demoWorld none none)).1 (by decide) (by decide),
   (NewClient_scheme_check demoLib demoExt (demoCfg []) (demoWorld none none)).2.1 rfl,
   (NewClient_scheme_check demoLib demoExt (demoCfg (str "https://api.local"))
      (demoWorld none none)).2.2 (by decide)⟩

/-- The slip next to C1: an endpoint of 1 to 7 bytes makes the slice
expression `cfg.APIEndpoint[:8]` panic, so `NewClient` neither returns an error
nor a client. -/
theorem NewClient_short_endpoint_panics :
    (NewClient demoLib demoExt (demoCfg (str "http:/")) (demoWorld none none)).1 = .panic := by
  decide

/-! ## The credential state check -/

theorem certAndKeyExist_present (cm : CertificateManager) (w : World) (fc fk : File)
    (hc : w.files cm.CertPath = some fc) (hk : w.files cm.KeyPath = some fk) :
    certAndKeyExist cm w =
      (true, { w with trace := w.trace ++ [.stat cm.CertPath, .stat cm.KeyPath] }) := by
  simp [certAndKeyExist, osStat, World.log, hc, hk]

theorem isCertValid_parsed (lib : Lib) (ext : Ext) (cm : CertificateManager) (w : World)
    (fc : File) (block : PemBlock) (cert : Certificate)
    (hc : w.files cm.CertPath = some fc) (hr : w.readFault cm.CertPath = none)
    (hpem : lib.pemDecode fc.data = some block)
    (hparse : lib.parseCertificate block.bytes = .ok cert) :
    isCertValid lib ext cm w =
      (.ok (decide (ext.now < cert.NotAfter)),
        { w with trace := w.trace ++ [.readFile cm.CertPath] }) := by
  simp [isCertValid, osReadFile, World.log, hc, hr, hpem, hparse]

theorem EnsureCertificate_valid (lib : Lib) (ext : Ext) (cm : CertificateManager) (w : World)
    (fc fk : File) (block : PemBlock) (cert : Certificate)
    (hc : w.files cm.CertPath = some fc) (hk : w.files cm.KeyPath = some fk)
    (hr : w.readFault cm.CertPath = none)
    (hpem : lib.pemDecode fc.data = some block)
    (hparse : lib.parseCertificate block.bytes = .ok cert)
    (hnow : ext.now < cert.NotAfter) :
    EnsureCertificate lib ext cm w =
      (none, { w with trace := w.trace ++ checkEvents cm }) := by
  have h1 := certAndKeyExist_present cm w fc fk hc hk
  have h2 := isCertValid_parsed lib ext cm
    { w with trace := w.trace ++ [.stat cm.CertPath, .stat cm.KeyPath] } fc block cert
    hc hr hpem hparse
  simp [EnsureCertificate, h1, h2, hnow, checkEvents]

/-! ## C2 -/

/-- C2: when both files exist and the certificate file reads, PEM-decodes and
parses to a certificate whose NotAfter is strictly after the time of each
call, any number of successive calls of `EnsureCertificate` all return success
and leave the world as it was (files, modes, umask) but for the trace, to
which each call appends two stats and one read: no write, no network call. -/
theorem EnsureCertificate_valid_idempotent (lib : Lib) (cm : CertificateManager)
    (exts : List Ext) (w : World) (fc fk : File) (block : PemBlock) (cert : Certificate)
    (hc : w.files cm.CertPath = some fc) (hk : w.files cm.KeyPath = some fk)
    (hr : w.readFault cm.CertPath = none)
    (hpem : lib.pemDecode fc.data = some block)
    (hparse : lib.parseCertificate block.bytes = .ok cert)
    (hnow : ∀ ext ∈ exts, ext.now < cert.NotAfter) :
    ensureRepeatedly lib cm exts w =
      (List.replicate exts.length none,
        { w with trace := w.trace ++ (List.replicate exts.length (checkEvents cm)).flatten }) ∧
    (∀ e ∈ checkEvents cm, e.isWrite = false ∧ e.isNetwork = false) := by
  refine ⟨?_, ?_⟩
  · induction exts generalizing w with
    | nil => simp [ensureRepeatedly]
    | cons ext rest ih =>
      have h1 := EnsureCertificate_valid lib ext cm w fc fk block cert hc hk hr hpem hparse
        (hnow ext (List.mem_cons_self _ _))
      have h2 := ih { w with trace := w.trace ++ checkEvents cm } hc hk hr
        (fun e he => hnow e (List.mem_cons_of_mem _ he))
      simp only [ensureRepeatedly, h1, h2]
      simp [List.replicate_succ, List.append_assoc]
  · intro e he
    simp only [checkEvents, List.mem_cons, List.mem_singleton, List.not_mem_nil, or_false] at he
    rcases he with rfl | rfl | rfl <;> exact ⟨rfl, rfl⟩

/-- C2 at a concrete input: three calls at times 100, 150 and 199 on a
certificate expiring at 200. -/
theorem EnsureCertificate_valid_idempotent_witness :
    ensureRepeatedly demoLib demoCM
        [demoExt, { demoExt with now := 150 }, { demoExt with now := 199 }]
        (demoWorld (some demoCertFile) (some demoKeyFile)) =
      (List.replicate 3 none,
        { demoWorld (some demoCertFile) (some demoKeyFile) with
          trace := (demoWorld (some demoCertFile) (some demoKeyFile)).trace ++
            (List.replicate 3 (checkEvents demoCM)).flatten }) ∧
    (∀ e ∈ checkEvents demoCM, e.isWrite = false ∧ e.isNetwork = false) :=
  EnsureCertificate_valid_idempotent demoLib demoCM
    [demoExt, { demoExt with now := 150 }, { demoExt with now := 199 }]
    (demoWorld (some demoCertFile) (some demoKeyFile)) demoCertFile demoKeyFile
    { blockType := [67], bytes := [7, 200] } { NotBefore := 0, NotAfter := 200, Raw := [7, 200] }
    (by decide) (by decide) rfl rfl rfl (by decide)

/-! ## C3 -/

/-- C3: when the certificate file reads, PEM-decodes and parses, `isCertValid`
returns `(true, nil)` exactly when the current time is strictly before
NotAfter and `(false, nil)` when it equals NotAfter or is later; replacing the
parsed NotBefore by any other value leaves the result unchanged. -/
theorem isCertValid_iff_before_NotAfter (lib : Lib) (ext : Ext) (cm : CertificateManager)
    (w : World) (fc : File) (block : PemBlock) (cert : Certificate)
    (hc : w.files cm.CertPath = some fc) (hr : w.readFault cm.CertPath = none)
    (hpem : lib.pemDecode fc.data = some block)
    (hparse : lib.parseCertificate block.bytes = .ok cert) :
    ((isCertValid lib ext cm w).1 = .ok true ↔ ext.now < cert.NotAfter) ∧
    (cert.NotAfter ≤ ext.now → (isCertValid lib ext cm w).1 = .ok false) ∧
    (∀ nb : Int,
      (isCertValid
        { lib with parseCertificate := fun der =>
            (lib.parseCertificate der).map (fun c => { c with NotBefore := nb }) }
        ext cm w).1 = (isCertValid lib ext cm w).1) := by
  have h := isCertValid_parsed lib ext cm w fc block cert hc hr hpem hparse
  refine ⟨?_, ?_, ?_⟩
  · rw [h]; simp
  · intro hle
    rw [h]; simp [not_lt.mpr hle]
  · intro nb
    have h2 := isCertValid_parsed
      { lib with parseCertificate := fun der =>
          (lib.parseCertificate der).map (fun c => { c with NotBefore := nb }) }
      ext cm w fc block { cert with NotBefore := nb } hc hr hpem (by simp [hparse, Except.map])
    rw [h, h2]

/-- C3 at a concrete input: at time 100 a certificate expiring at 200 is
valid. -/
theorem isCertValid_iff_before_NotAfter_witness :
    ((isCertValid demoLib demoExt demoCM (demoWorld (some demoCertFile) none)).1 = .ok true ↔
      demoExt.now < 200) ∧
    ((200 : Int) ≤ demoExt.now →
      (isCertValid demoLib demoExt demoCM (demoWorld (some demoCertFile) none)).1 = .ok false) ∧
    (∀ nb : Int,
      (isCertValid
        { demoLib with parseCertificate := fun der =>
            (demoLib.parseCertificate der).map (fun c => { c with NotBefore := nb }) }
        demoExt demoCM (demoWorld (some demoCertFile) none)).1 =
      (isCertValid demoLib demoExt demoCM (demoWorld (some demoCertFile) none)).1) :=
  isCertValid_iff_before_NotAfter demoLib demoExt demoCM (demoWorld (some demoCertFile) none)
    demoCertFile { blockType := [67], bytes := [7, 200] }
    { NotBefore := 0, NotAfter := 200, Raw := [7, 200] } (by decide) rfl rfl rfl

/-! ## Independence of the trace -/

theorem World.sameFS_trace (w : World) (t : List Event) : w.sameFS { w with trace := t } :=
  ⟨rfl, rfl, rfl, rfl⟩

theorem requestCertFromCFSSL_sameFS (lib : Lib) (ext : Ext) (cm : CertificateManager)
    (csr : GoString) (w w2 : World) (h : w.sameFS w2) :
    (requestCertFromCFSSL lib ext cm csr w).1 = (requestCertFromCFSSL lib ext cm csr w2).1 ∧
    (requestCertFromCFSSL lib ext cm csr w).2.sameFS (requestCertFromCFSSL lib ext cm csr w2).2 := by
  obtain ⟨hf, hu, hr, hw⟩ := h
  have hf2 := congrFun hf cm.CACertPath
  have hr2 := congrFun hr cm.CACertPath
  cases hfc : w2.files cm.CACertPath with
  | none =>
    simp [requestCertFromCFSSL, osReadFile, httpPost, World.log, World.sameFS, hfc, hf2, hf, hu, hr, hw]
  | some f =>
    cases hrc : w2.readFault cm.CACertPath with
    | some e =>
      simp [requestCertFromCFSSL, osReadFile, httpPost, World.log, World.sameFS, hfc, hrc, hf2, hr2,
        hf, hu, hr, hw]
    | none =>
      cases hemp : (lib.certsFromPEM f.data).isEmpty with
      | true =>
        simp [requestCertFromCFSSL, osReadFile, httpPost, World.log, World.sameFS, hfc, hrc, hf2,
          hr2, hemp, hf, hu, hr, hw]
      | false =>
        simp only [requestCertFromCFSSL, osReadFile, httpPost, World.log, World.sameFS, hfc, hrc,
          hf2, hr2, hemp]
        cases ext.post _ with
        | error e => simp [hf, hu, hr, hw]
        | ok body =>
          cases hj : lib.jsonUnmarshal body with
          | error e => simp [hj, hf, hu, hr, hw]
          | ok resp =>
            cases hs : resp.Success <;> simp [hj, hs, hf, hu, hr, hw]

theorem osWriteFile_sameFS (path data : GoString) (perm : Nat) (w w2 : World) (h : w.sameFS w2) :
    (osWriteFile path data perm w).1 = (osWriteFile path data perm w2).1 ∧
    (osWriteFile path data perm w).2.sameFS (osWriteFile path data perm w2).2 := by
  obtain ⟨hf, hu, hr, hw⟩ := h
  have hw2 := congrFun hw path
  cases hwf : w2.writeFault path <;>
    simp [osWriteFile, World.log, World.store, World.sameFS, hwf, hw2, hf, hu, hr, hw]

theorem regenerate_sameFS (lib : Lib) (ext : Ext) (cm : CertificateManager) (w w2 : World)
    (h : w.sameFS w2) :
    (regenerate lib ext cm w).1 = (regenerate lib ext cm w2).1 ∧
    (regenerate lib ext cm w).2.sameFS (regenerate lib ext cm w2).2 := by
  unfold regenerate
  cases hg : generateKeyAndCSR lib ext cm with
  | error e => exact ⟨rfl, h⟩
  | ok kc =>
    obtain ⟨key, csr⟩ := kc
    dsimp only
    have h1 := requestCertFromCFSSL_sameFS lib ext cm csr w w2 h
    rcases hq : requestCertFromCFSSL lib ext cm csr w with ⟨r, wa⟩
    rcases hq2 : requestCertFromCFSSL lib ext cm csr w2 with ⟨r2, wb⟩
    rw [hq, hq2] at h1
    obtain ⟨hr, hs⟩ := h1
    simp only at hr hs
    subst hr
    cases r with
    | error e => exact ⟨rfl, hs⟩
    | ok certPEM =>
      simp only
      have h2 := osWriteFile_sameFS cm.CertPath certPEM 0o600 wa wb hs
      rcases hx : osWriteFile cm.CertPath certPEM 0o600 wa with ⟨e1, wc⟩
      rcases hx2 : osWriteFile cm.CertPath certPEM 0o600 wb with ⟨e2, wd⟩
      rw [hx, hx2] at h2
      obtain ⟨he, hs2⟩ := h2
      simp only at he hs2
      subst he
      cases e1 with
      | some e => exact ⟨rfl, hs2⟩
      | none =>
        simp only
        have h3 := osWriteFile_sameFS cm.KeyPath
          (lib.pemEncodeToMemory
            { blockType := str "RSA PRIVATE KEY", bytes := lib.marshalPKCS1PrivateKey key })
          0o600 wc wd hs2
        rcases hy : osWriteFile cm.KeyPath
          (lib.pemEncodeToMemory
            { blockType := str "RSA PRIVATE KEY", bytes := lib.marshalPKCS1PrivateKey key })
          0o600 wc with ⟨e3, we⟩
        rcases hy2 : osWriteFile cm.KeyPath
          (lib.pemEncodeToMemory
            { blockType := str "RSA PRIVATE KEY", bytes := lib.marshalPKCS1PrivateKey key })
          0o600 wd with ⟨e4, wf⟩
        rw [hy, hy2] at h3
        obtain ⟨he3, hs3⟩ := h3
        simp only at he3 hs3
        subst he3
        cases e3 with
        | some e => exact ⟨rfl, hs3⟩
        | none => exact ⟨rfl, hs3⟩

/-! ## C4 -/

/-- C4: when both files exist but the certificate file cannot be read, holds
no PEM block, or does not parse as X.509, `EnsureCertificate` is the
regeneration (generate key and CSR, signing exchange, persist) run after the
three effects of the state check, exactly as when a file is absent, where it
is the regeneration run after one or two stats; the error it returns and the
filesystem it leaves are those of the regeneration started from the initial
world, so the read, decode or parse error is never returned. -/
theorem EnsureCertificate_corrupt_regenerates (lib : Lib) (ext : Ext) (cm : CertificateManager)
    (w : World) (fc fk : File)
    (hc : w.files cm.CertPath = some fc) (hk : w.files cm.KeyPath = some fk)
    (hbad : (∃ e, w.readFault cm.CertPath = some e) ∨
      (w.readFault cm.CertPath = none ∧ lib.pemDecode fc.data = none) ∨
      (w.readFault cm.CertPath = none ∧ ∃ block e, lib.pemDecode fc.data = some block ∧
        lib.parseCertificate block.bytes = .error e)) :
    EnsureCertificate lib ext cm w =
      regenerate lib ext cm { w with trace := w.trace ++ checkEvents cm } ∧
    (EnsureCertificate lib ext cm w).1 = (regenerate lib ext cm w).1 ∧
    (EnsureCertificate lib ext cm w).2.files = (regenerate lib ext cm w).2.files ∧
    (∀ w0 : World, w0.files cm.CertPath = none →
      EnsureCertificate lib ext cm w0 =
        regenerate lib ext cm { w0 with trace := w0.trace ++ [.stat cm.CertPath] }) ∧
    (∀ w0 : World, w0.files cm.CertPath ≠ none → w0.files cm.KeyPath = none →
      EnsureCertificate lib ext cm w0 =
        regenerate lib ext cm
          { w0 with trace := w0.trace ++ [.stat cm.CertPath, .stat cm.KeyPath] }) := by
  have h1 := certAndKeyExist_present cm w fc fk hc hk
  have hmain : EnsureCertificate lib ext cm w =
      regenerate lib ext cm { w with trace := w.trace ++ checkEvents cm } := by
    rcases hbad with ⟨e, he⟩ | ⟨hr, hp⟩ | ⟨hr, block, e, hp, hx⟩
    · simp [EnsureCertificate, h1, isCertValid, osReadFile, World.log, hc, he, checkEvents]
    · simp [EnsureCertificate, h1, isCertValid, osReadFile, World.log, hc, hr, hp, checkEvents]
    · simp [EnsureCertificate, h1, isCertValid, osReadFile, World.log, hc, hr, hp, hx, checkEvents]
  have hs := regenerate_sameFS lib ext cm w { w with trace := w.trace ++ checkEvents cm }
    (World.sameFS_trace w _)
  refine ⟨hmain, ?_, ?_, ?_, ?_⟩
  · rw [hmain]; exact hs.1.symm
  · rw [hmain]; exact hs.2.1.symm
  · intro w0 h0
    simp [EnsureCertificate, certAndKeyExist, osStat, World.log, h0]
  · intro w0 h0 hk0
    obtain ⟨f0, hf0⟩ := Option.ne_none_iff_exists.mp h0
    simp [EnsureCertificate, certAndKeyExist, osStat, World.log, ← hf0, hk0]

/-- C4 at a concrete input: the certificate file holds the two bytes `??`,
which is no PEM block. -/
theorem EnsureCertificate_corrupt_regenerates_witness :
    EnsureCertificate demoLib demoExt demoCM
        (demoWorld (some { data := [63, 63], mode := 0o600 }) (some demoKeyFile)) =
      regenerate demoLib demoExt demoCM
        { demoWorld (some { data := [63, 63], mode := 0o600 }) (some demoKeyFile) with
          trace := (demoWorld (some { data := [63, 63], mode := 0o600 }) (some demoKeyFile)).trace ++
            checkEvents demoCM } ∧
    (EnsureCertificate demoLib demoExt demoCM
        (demoWorld (some { data := [63, 63], mode := 0o600 }) (some demoKeyFile))).1 = none :=
  ⟨(EnsureCertificate_corrupt_regenerates demoLib demoExt demoCM
      (demoWorld (some { data := [63, 63], mode := 0o600 }) (some demoKeyFile))
      { data := [63, 63], mode := 0o600 } demoKeyFile (by decide) (by decide)
      (Or.inr (Or.inl ⟨rfl, rfl⟩))).1, by decide⟩

/-! ## Regeneration -/

theorem EnsureCertificate_not_valid (lib : Lib) (ext : Ext) (cm : CertificateManager) (w : World)
    (h : ¬ credentialValid lib ext cm w) :
    ∃ pre, pre <+: checkEvents cm ∧
      EnsureCertificate lib ext cm w = regenerate lib ext cm { w with trace := w.trace ++ pre } := by
  cases hc : w.files cm.CertPath with
  | none =>
    exact ⟨[.stat cm.CertPath], ⟨[.stat cm.KeyPath, .readFile cm.CertPath], rfl⟩,
      by simp [EnsureCertificate, certAndKeyExist, osStat, World.log, hc]⟩
  | some fc =>
    cases hk : w.files cm.KeyPath with
    | none =>
      exact ⟨[.stat cm.CertPath, .stat cm.KeyPath], ⟨[.readFile cm.CertPath], rfl⟩,
        by simp [EnsureCertificate, certAndKeyExist, osStat, World.log, hc, hk]⟩
    | some fk =>
      refine ⟨checkEvents cm, List.prefix_refl _, ?_⟩
      have h1 := certAndKeyExist_present cm w fc fk hc hk
      cases hr : w.readFault cm.CertPath with
      | some e =>
        simp [EnsureCertificate, h1, isCertValid, osReadFile, World.log, hc, hr, checkEvents]
      | none =>
        cases hp : lib.pemDecode fc.data with
        | none =>
          simp [EnsureCertificate, h1, isCertValid, osReadFile, World.log, hc, hr, hp, checkEvents]
        | some block =>
          cases hx : lib.parseCertificate block.bytes with
          | error e =>
            simp [EnsureCertificate, h1, isCertValid, osReadFile, World.log, hc, hr, hp, hx,
              checkEvents]
          | ok cert =>
            have hnow : ¬ ext.now < cert.NotAfter := fun hlt =>
              h ⟨fc, fk, block, cert, hc, hk, hr, hp, hx, hlt⟩
            simp [EnsureCertificate, h1, isCertValid, osReadFile, World.log, hc, hr, hp, hx,
              hnow, checkEvents]

theorem generateKeyAndCSR_ok (lib : Lib) (ext : Ext) (cm : CertificateManager)
    (key : PrivateKey) (csrDER : GoString)
    (hkey : ext.generateKey 2048 = .ok key)
    (hcsr : ext.createCertificateRequest
      { CommonName := cm.CommonName, Organization := [cm.Organization] } key = .ok csrDER) :
    generateKeyAndCSR lib ext cm = .ok (key, csrPEMOf lib csrDER) := by
  simp [generateKeyAndCSR, hkey, hcsr, csrPEMOf]

theorem requestCertFromCFSSL_answered (lib : Lib) (ext : Ext) (cm : CertificateManager)
    (csr : GoString) (w : World) (fca : File) (body : GoString) (resp : cfsslSignResponse)
    (hca : w.files cm.CACertPath = some fca) (hcar : w.readFault cm.CACertPath = none)
    (hpool : lib.certsFromPEM fca.data ≠ [])
    (hpost : ext.post (signingPost lib cm fca.data csr) = .ok body)
    (hjson : lib.jsonUnmarshal body = .ok resp) :
    requestCertFromCFSSL lib ext cm csr w =
      (if resp.Success then .ok resp.Result.Certificate
        else .error (errorf "CFSSL sign failed: " body),
       { w with trace := w.trace ++
          [.readFile cm.CACertPath, .httpPost (signingPost lib cm fca.data csr)] }) := by
  have hpost2 := hpost
  simp only [signingPost] at hpost2
  cases hs : resp.Success <;>
    simp [requestCertFromCFSSL, osReadFile, httpPost, World.log, hca, hcar, hpool, hpost2, hjson,
      hs, signingPost]

theorem regenerate_signed (lib : Lib) (ext : Ext) (cm : CertificateManager) (w : World)
    (fca : File) (key : PrivateKey) (csr body : GoString) (resp : cfsslSignResponse)
    (hgen : generateKeyAndCSR lib ext cm = .ok (key, csr))
    (hca : w.files cm.CACertPath = some fca) (hcar : w.readFault cm.CACertPath = none)
    (hpool : lib.certsFromPEM fca.data ≠ [])
    (hpost : ext.post (signingPost lib cm fca.data csr) = .ok body)
    (hjson : lib.jsonUnmarshal body = .ok resp) (hsucc : resp.Success = true)
    (hwc : w.writeFault cm.CertPath = .none) (hwk : w.writeFault cm.KeyPath = .none) :
    regenerate lib ext cm w =
      (none,
        ((((({ w with trace := w.trace ++
              [Event.readFile cm.CACertPath,
               Event.httpPost (signingPost lib cm fca.data csr)] } : World)).log
            (.writeFile cm.CertPath resp.Result.Certificate 0o600)).store
            cm.CertPath resp.Result.Certificate 0o600).log
            (.writeFile cm.KeyPath (keyPEMOf lib key) 0o600)).store
            cm.KeyPath (keyPEMOf lib key) 0o600) := by
  have hq := requestCertFromCFSSL_answered lib ext cm csr w fca body resp
    hca hcar hpool hpost hjson
  simp only [hsucc, if_true] at hq
  simp [regenerate, hgen, hq, osWriteFile, World.log, World.store, hwc, hwk, keyPEMOf]

theorem regenerate_ok_inv (lib : Lib) (ext : Ext) (cm : CertificateManager) (w : World)
    (h : (regenerate lib ext cm w).1 = none) :
    ∃ (key : PrivateKey) (csr : GoString) (fca : File) (body : GoString)
      (resp : cfsslSignResponse),
      generateKeyAndCSR lib ext cm = .ok (key, csr) ∧
      w.files cm.CACertPath = some fca ∧ w.readFault cm.CACertPath = none ∧
      lib.certsFromPEM fca.data ≠ [] ∧
      ext.post (signingPost lib cm fca.data csr) = .ok body ∧
      lib.jsonUnmarshal body = .ok resp ∧ resp.Success = true ∧
      w.writeFault cm.CertPath = .none ∧ w.writeFault cm.KeyPath = .none := by
  cases hg : generateKeyAndCSR lib ext cm with
  | error e => simp [regenerate, hg] at h
  | ok kc =>
    obtain ⟨key, csr⟩ := kc
    cases hca : w.files cm.CACertPath with
    | none => simp [regenerate, hg, requestCertFromCFSSL, osReadFile, hca] at h
    | some fca =>
      cases hcar : w.readFault cm.CACertPath with
      | some e => simp [regenerate, hg, requestCertFromCFSSL, osReadFile, hca, hcar] at h
      | none =>
        by_cases hpool : lib.certsFromPEM fca.data = []
        · simp [regenerate, hg, requestCertFromCFSSL, osReadFile, hca, hcar, hpool] at h
        · cases hpost : ext.post (signingPost lib cm fca.data csr) with
          | error e =>
            have hpost2 := hpost
            simp only [signingPost] at hpost2
            simp [regenerate, hg, requestCertFromCFSSL, osReadFile, httpPost, hca, hcar, hpool,
              hpost2] at h
          | ok body =>
            cases hjson : lib.jsonUnmarshal body with
            | error e =>
              have hpost2 := hpost
              simp only [signingPost] at hpost2
              simp [regenerate, hg, requestCertFromCFSSL, osReadFile, httpPost, hca, hcar, hpool,
                hpost2, hjson] at h
            | ok resp =>
              have hq := requestCertFromCFSSL_answered lib ext cm csr w fca body resp
                hca hcar hpool hpost hjson
              cases hs : resp.Success with
              | false => simp [regenerate, hg, hq, hs] at h
              | true =>
                simp only [hs, if_true] at hq
                cases hwc : w.writeFault cm.CertPath with
                | openFails e =>
                  simp [regenerate, hg, hq, osWriteFile, World.log, World.store, hwc] at h
                | writeFails e n =>
                  simp [regenerate, hg, hq, osWriteFile, World.log, World.store, hwc] at h
                | none =>
                  cases hwk : w.writeFault cm.KeyPath with
                  | openFails e =>
                    simp [regenerate, hg, hq, osWriteFile, World.log, World.store, hwc, hwk] at h
                  | writeFails e n =>
                    simp [regenerate, hg, hq, osWriteFile, World.log, World.store, hwc, hwk] at h
                  | none => exact ⟨key, csr, fca, body, resp, rfl, rfl, rfl, hpool, hpost, hjson, hs, rfl, rfl⟩

/-! ## C5 -/

/-- C5: when the certificate file or the key file is missing, or the
certificate on disk has NotAfter at or before the current time, and the key
generation, the signing exchange (answered with success) and the two writes go
through, `EnsureCertificate` returns success; the certificate path then holds
exactly the certificate string of the response and the key path the PEM
encoding of the key just generated, the one the submitted CSR was created
for; the effects are a prefix of the state check, the read of the CA file,
the POST and the two writes, and the key file is never read. The three paths
are taken to name distinct files. -/
theorem EnsureCertificate_regenerates_fresh (lib : Lib) (ext : Ext) (cm : CertificateManager)
    (w : World) (fca : File) (key : PrivateKey) (csrDER body : GoString)
    (resp : cfsslSignResponse)
    (hstate : w.files cm.CertPath = none ∨ w.files cm.KeyPath = none ∨
      ∃ (fc : File) (block : PemBlock) (cert : Certificate),
        w.files cm.CertPath = some fc ∧ w.readFault cm.CertPath = none ∧
        lib.pemDecode fc.data = some block ∧ lib.parseCertificate block.bytes = .ok cert ∧
        cert.NotAfter ≤ ext.now)
    (hdist : cm.CertPath ≠ cm.KeyPath) (hdist2 : cm.CACertPath ≠ cm.KeyPath)
    (hkey : ext.generateKey 2048 = .ok key)
    (hcsr : ext.createCertificateRequest
      { CommonName := cm.CommonName, Organization := [cm.Organization] } key = .ok csrDER)
    (hca : w.files cm.CACertPath = some fca) (hcar : w.readFault cm.CACertPath = none)
    (hpool : lib.certsFromPEM fca.data ≠ [])
    (hpost : ext.post (signingPost lib cm fca.data (csrPEMOf lib csrDER)) = .ok body)
    (hjson : lib.jsonUnmarshal body = .ok resp) (hsucc : resp.Success = true)
    (hwc : w.writeFault cm.CertPath = .none) (hwk : w.writeFault cm.KeyPath = .none) :
    (EnsureCertificate lib ext cm w).1 = none ∧
    ((EnsureCertificate lib ext cm w).2.files cm.CertPath).map File.data =
      some resp.Result.Certificate ∧
    ((EnsureCertificate lib ext cm w).2.files cm.KeyPath).map File.data =
      some (keyPEMOf lib key) ∧
    ∃ pre, pre <+: checkEvents cm ∧
      (EnsureCertificate lib ext cm w).2.trace = w.trace ++ (pre ++
        [.readFile cm.CACertPath,
         .httpPost (signingPost lib cm fca.data (csrPEMOf lib csrDER)),
         .writeFile cm.CertPath resp.Result.Certificate 0o600,
         .writeFile cm.KeyPath (keyPEMOf lib key) 0o600]) ∧
      Event.readFile cm.KeyPath ∉ pre ++
        [.readFile cm.CACertPath,
         .httpPost (signingPost lib cm fca.data (csrPEMOf lib csrDER)),
         .writeFile cm.CertPath resp.Result.Certificate 0o600,
         .writeFile cm.KeyPath (keyPEMOf lib key) 0o600] := by
  have hnv : ¬ credentialValid lib ext cm w := by
    rintro ⟨fc, fk, block, cert, hc, hk, hr, hp, hx, hlt⟩
    rcases hstate with h | h | ⟨fc2, block2, cert2, hc2, _, hp2, hx2, hle⟩
    · rw [hc] at h; exact absurd h (by simp)
    · rw [hk] at h; exact absurd h (by simp)
    · rw [hc] at hc2
      cases hc2
      rw [hp] at hp2
      cases hp2
      rw [hx] at hx2
      cases hx2
      exact absurd hlt (not_lt.mpr hle)
  obtain ⟨pre, hpre, he⟩ := EnsureCertificate_not_valid lib ext cm w hnv
  have hr := regenerate_signed lib ext cm { w with trace := w.trace ++ pre } fca key
    (csrPEMOf lib csrDER) body resp (generateKeyAndCSR_ok lib ext cm key csrDER hkey hcsr)
    hca hcar hpool hpost hjson hsucc hwc hwk
  rw [he, hr]
  refine ⟨rfl, ?_, ?_, pre, hpre, ?_, ?_⟩
  · simp [World.store, World.log, hdist]
  · simp [World.store, World.log]
  · simp [World.store, World.log]
  · intro hmem
    rw [List.mem_append] at hmem
    rcases hmem with hmem | hmem
    · have := hpre.subset hmem
      simp only [checkEvents, List.mem_cons, List.mem_singleton, List.not_mem_nil, or_false,
        Event.readFile.injEq] at this
      rcases this with h | h | h
      · cases h
      · cases h
      · exact hdist h.symm
    · simp only [List.mem_cons, List.mem_singleton, List.not_mem_nil, or_false,
        Event.readFile.injEq] at hmem
      rcases hmem with h | h | h | h
      · exact hdist2 h.symm
      · cases h
      · cases h
      · cases h

/-- C5 at a concrete input: the certificate on disk expired at 50, the clock
reads 100, and the signing authority returns a certificate for the new key. -/
theorem EnsureCertificate_regenerates_fresh_witness :
    (EnsureCertificate demoLib demoExt demoCM
      (demoWorld (some demoExpiredCertFile) (some demoKeyFile))).1 = none ∧
    ((EnsureCertificate demoLib demoExt demoCM
      (demoWorld (some demoExpiredCertFile) (some demoKeyFile))).2.files demoCM.CertPath).map
        File.data = some [45, 67, 7, 200] :=
  ⟨(EnsureCertificate_regenerates_fresh demoLib demoExt demoCM
      (demoWorld (some demoExpiredCertFile) (some demoKeyFile))
      { data := [45, 67, 1, 250], mode := 0o644 } { bits := 2048, material := [7] } [7]
      [116, 45, 67, 7, 200]
      { Success := true, Result := { Certificate := [45, 67, 7, 200] } }
      (Or.inr (Or.inr ⟨demoExpiredCertFile, { blockType := [67], bytes := [7, 50] },
        { NotBefore := 0, NotAfter := 50, Raw := [7, 50] }, by decide, rfl, rfl, rfl, by decide⟩))
      (by decide) (by decide) rfl rfl (by decide) rfl (by decide) rfl rfl rfl rfl rfl).1,
   (EnsureCertificate_regenerates_fresh demoLib demoExt demoCM
      (demoWorld (some demoExpiredCertFile) (some demoKeyFile))
      { data := [45, 67, 1, 250], mode := 0o644 } { bits := 2048, material := [7] } [7]
      [116, 45, 67, 7, 200]
      { Success := true, Result := { Certificate := [45, 67, 7, 200] } }
      (Or.inr (Or.inr ⟨demoExpiredCertFile, { blockType := [67], bytes := [7, 50] },
        { NotBefore := 0, NotAfter := 50, Raw := [7, 50] }, by decide, rfl, rfl, rfl, by decide⟩))
      (by decide) (by decide) rfl rfl (by decide) rfl (by decide) rfl rfl rfl rfl rfl).2.1⟩

/-! ## C6 -/

/-- C6: when the CA file is usable and the signing authority answers with a
body that decodes with `success` false (an absent key decodes to false),
`requestCertFromCFSSL` returns the error `CFSSL sign failed: ` followed by the
raw body, so the message contains the body verbatim; and `EnsureCertificate`,
having found no valid credential and generated key and CSR, returns that same
error, leaves every file as it was and performs no write. -/
theorem EnsureCertificate_signing_refused (lib : Lib) (ext : Ext) (cm : CertificateManager)
    (w : World) (fca : File)
    (hca : w.files cm.CACertPath = some fca) (hcar : w.readFault cm.CACertPath = none)
    (hpool : lib.certsFromPEM fca.data ≠ []) :
    (∀ (csr body : GoString) (resp : cfsslSignResponse),
      ext.post (signingPost lib cm fca.data csr) = .ok body →
      lib.jsonUnmarshal body = .ok resp → resp.Success = false →
      (requestCertFromCFSSL lib ext cm csr w).1 = .error (errorf "CFSSL sign failed: " body) ∧
      body <:+: (errorf "CFSSL sign failed: " body).msg) ∧
    (∀ (key : PrivateKey) (csr body : GoString) (resp : cfsslSignResponse),
      ¬ credentialValid lib ext cm w →
      generateKeyAndCSR lib ext cm = .ok (key, csr) →
      ext.post (signingPost lib cm fca.data csr) = .ok body →
      lib.jsonUnmarshal body = .ok resp → resp.Success = false →
      (EnsureCertificate lib ext cm w).1 = some (errorf "CFSSL sign failed: " body) ∧
      (EnsureCertificate lib ext cm w).2.files = w.files ∧
      ∃ t, (EnsureCertificate lib ext cm w).2.trace = w.trace ++ t ∧
        ∀ e ∈ t, e.isWrite = false) := by
  refine ⟨?_, ?_⟩
  · intro csr body resp hpost hjson hfalse
    have hq := requestCertFromCFSSL_answered lib ext cm csr w fca body resp hca hcar hpool
      hpost hjson
    rw [hq]
    refine ⟨by simp [hfalse], ?_⟩
    exact (List.suffix_append _ _).isInfix
  · intro key csr body resp hnv hgen hpost hjson hfalse
    obtain ⟨pre, hpre, he⟩ := EnsureCertificate_not_valid lib ext cm w hnv
    have hq := requestCertFromCFSSL_answered lib ext cm csr { w with trace := w.trace ++ pre }
      fca body resp hca hcar hpool hpost hjson
    have hr : regenerate lib ext cm { w with trace := w.trace ++ pre } =
        (some (errorf "CFSSL sign failed: " body),
          { w with trace := w.trace ++ (pre ++
            [Event.readFile cm.CACertPath, Event.httpPost (signingPost lib cm fca.data csr)]) }) := by
      simp [regenerate, hgen, hq, hfalse]
    rw [he, hr]
    refine ⟨rfl, rfl, _, rfl, ?_⟩
    intro e hmem
    rw [List.mem_append] at hmem
    rcases hmem with hmem | hmem
    · have := hpre.subset hmem
      simp only [checkEvents, List.mem_cons, List.mem_singleton, List.not_mem_nil, or_false] at this
      rcases this with rfl | rfl | rfl <;> rfl
    · simp only [List.mem_cons, List.mem_singleton, List.not_mem_nil, or_false] at hmem
      rcases hmem with rfl | rfl <;> rfl

/-- C6 at a concrete input: no credential on disk, and the signing authority
answers `f!`, which decodes with `success` false. -/
theorem EnsureCertificate_signing_refused_witness :
    ((requestCertFromCFSSL demoLib demoExtRefused demoCM [45, 67, 7] (demoWorld none none)).1 =
        .error (errorf "CFSSL sign failed: " [102, 33]) ∧
      [102, 33] <:+: (errorf "CFSSL sign failed: " [102, 33]).msg) ∧
    ((EnsureCertificate demoLib demoExtRefused demoCM (demoWorld none none)).1 =
        some (errorf "CFSSL sign failed: " [102, 33]) ∧
      (EnsureCertificate demoLib demoExtRefused demoCM (demoWorld none none)).2.files =
        (demoWorld none none).files ∧
      ∃ t, (EnsureCertificate demoLib demoExtRefused demoCM (demoWorld none none)).2.trace =
          (demoWorld none none).trace ++ t ∧
        ∀ e ∈ t, e.isWrite = false) :=
  ⟨(EnsureCertificate_signing_refused demoLib demoExtRefused demoCM (demoWorld none none)
      { data := [45, 67, 1, 250], mode := 0o644 } (by decide) rfl (by decide)).1
      [45, 67, 7] [102, 33] { Success := false, Result := { Certificate := [] } } rfl rfl rfl,
   (EnsureCertificate_signing_refused demoLib demoExtRefused demoCM (demoWorld none none)
      { data := [45, 67, 1, 250], mode := 0o644 } (by decide) rfl (by decide)).2
      { bits := 2048, material := [7] } [45, 67, 7] [102, 33]
      { Success := false, Result := { Certificate := [] } }
      (by
        rintro ⟨fc, _, _, _, hc, _⟩
        have hnone : (demoWorld none none).files demoCM.CertPath = none := by decide
        rw [hnone] at hc
        cases hc)
      rfl rfl rfl rfl⟩

/-! ## C7 -/

/-- C7 (as stated, refuted): with a certificate file that is valid until 200
and a key file holding the single byte `?`, `EnsureCertificate` returns
success at time 100, and `GetTLSConfig` on the resulting world fails to load
the key pair; and with no files on disk and a signing response `t?` (success,
certificate `?`), `EnsureCertificate` returns success having written `?` as
the certificate, which `isCertValid` cannot decode and `GetTLSConfig` cannot
load. -/
theorem EnsureCertificate_success_not_loadable :
    ((EnsureCertificate demoLib demoExt demoCM
        (demoWorld (some demoCertFile) (some { data := [63], mode := 0o600 }))).1 = none ∧
      (GetTLSConfig demoLib demoCM (EnsureCertificate demoLib demoExt demoCM
        (demoWorld (some demoCertFile) (some { data := [63], mode := 0o600 }))).2).1.toOption
        = none) ∧
    ((EnsureCertificate demoLib { demoExt with post := fun _ => .ok [116, 63] } demoCM
        (demoWorld none none)).1 = none ∧
      (isCertValid demoLib demoExt demoCM
        (EnsureCertificate demoLib { demoExt with post := fun _ => .ok [116, 63] } demoCM
          (demoWorld none none)).2).1.toOption = none ∧
      (GetTLSConfig demoLib demoCM
        (EnsureCertificate demoLib { demoExt with post := fun _ => .ok [116, 63] } demoCM
          (demoWorld none none)).2).1.toOption = none) := by
  refine ⟨⟨by decide, by decide⟩, by decide, by decide, by decide⟩

theorem tlsLoadX509KeyPair_present (lib : Lib) (certFile keyFile : GoString) (w : World)
    (fc fk : File) (hc : w.files certFile = some fc) (hk : w.files keyFile = some fk) :
    (tlsLoadX509KeyPair lib certFile keyFile w).1 =
      (match w.readFault certFile with
        | some e => .error e
        | none =>
          match w.readFault keyFile with
          | some e => .error e
          | none => lib.x509KeyPair fc.data fk.data) := by
  cases hrc : w.readFault certFile with
  | some e => simp [tlsLoadX509KeyPair, osReadFile, World.log, hc, hrc]
  | none =>
    cases hrk : w.readFault keyFile with
    | some e => simp [tlsLoadX509KeyPair, osReadFile, World.log, hc, hk, hrc, hrk]
    | none => simp [tlsLoadX509KeyPair, osReadFile, World.log, hc, hk, hrc, hrk]

/-- C7 (amended): whenever `EnsureCertificate` returns success, both files are
present, with contents `fc` and `fk`, and the key-pair load of `GetTLSConfig`
on the resulting world returns the read error when one of the two files cannot
be read and otherwise whatever `tls.X509KeyPair` returns on the two contents.
Either the credential on disk passed the state check, no file was changed and
`isCertValid` returns true (the content of the key file is not examined); or
no valid credential was found, a key and its CSR were generated, the POST of
that CSR to the signing authority was made and its response body decoded with
`success` true, the key file holds the PEM encoding of the generated key, and
the certificate file holds exactly the certificate string of that response
when the two paths are distinct (when they are the same path the one file
holds the key PEM); the returned certificate is not examined. -/
theorem EnsureCertificate_success_state (lib : Lib) (ext : Ext) (cm : CertificateManager)
    (w : World) (hok : (EnsureCertificate lib ext cm w).1 = none) :
    ∃ fc fk : File,
      (EnsureCertificate lib ext cm w).2.files cm.CertPath = some fc ∧
      (EnsureCertificate lib ext cm w).2.files cm.KeyPath = some fk ∧
      (tlsLoadX509KeyPair lib cm.CertPath cm.KeyPath (EnsureCertificate lib ext cm w).2).1 =
        (match w.readFault cm.CertPath with
          | some e => .error e
          | none =>
            match w.readFault cm.KeyPath with
            | some e => .error e
            | none => lib.x509KeyPair fc.data fk.data) ∧
      ((credentialValid lib ext cm w ∧
          (EnsureCertificate lib ext cm w).2.files = w.files ∧
          (isCertValid lib ext cm (EnsureCertificate lib ext cm w).2).1 = .ok true) ∨
       (¬ credentialValid lib ext cm w ∧
        ∃ (key : PrivateKey) (csr : GoString) (fca : File) (body : GoString)
          (resp : cfsslSignResponse),
          generateKeyAndCSR lib ext cm = .ok (key, csr) ∧
          w.files cm.CACertPath = some fca ∧
          ext.post (signingPost lib cm fca.data csr) = .ok body ∧
          Event.httpPost (signingPost lib cm fca.data csr) ∈
            (EnsureCertificate lib ext cm w).2.trace ∧
          lib.jsonUnmarshal body = .ok resp ∧ resp.Success = true ∧
          fk.data = keyPEMOf lib key ∧
          (cm.CertPath ≠ cm.KeyPath → fc.data = resp.Result.Certificate) ∧
          (cm.CertPath = cm.KeyPath → fc = fk))) := by
  by_cases hv : credentialValid lib ext cm w
  · obtain ⟨fc, fk, block, cert, hc, hk, hr, hp, hx, hlt⟩ := hv
    have h1 := EnsureCertificate_valid lib ext cm w fc fk block cert hc hk hr hp hx hlt
    have hval := isCertValid_parsed lib ext cm { w with trace := w.trace ++ checkEvents cm }
      fc block cert hc hr hp hx
    have hload := tlsLoadX509KeyPair_present lib cm.CertPath cm.KeyPath
      { w with trace := w.trace ++ checkEvents cm } fc fk hc hk
    rw [h1]
    refine ⟨fc, fk, hc, hk, hload, Or.inl ⟨⟨fc, fk, block, cert, hc, hk, hr, hp, hx, hlt⟩, rfl, ?_⟩⟩
    rw [hval]
    simp [hlt]
  · obtain ⟨pre, _, he⟩ := EnsureCertificate_not_valid lib ext cm w hv
    rw [he] at hok
    obtain ⟨key, csr, fca, body, resp, hgen, hca, hcar, hpool, hpost, hjson, hsucc, hwc, hwk⟩ :=
      regenerate_ok_inv lib ext cm _ hok
    have hr := regenerate_signed lib ext cm { w with trace := w.trace ++ pre } fca key csr body
      resp hgen hca hcar hpool hpost hjson hsucc hwc hwk
    have hE : EnsureCertificate lib ext cm w = (none,
        ((((({ w with trace := (w.trace ++ pre) ++
              [Event.readFile cm.CACertPath,
               Event.httpPost (signingPost lib cm fca.data csr)] } : World)).log
            (.writeFile cm.CertPath resp.Result.Certificate 0o600)).store
            cm.CertPath resp.Result.Certificate 0o600).log
            (.writeFile cm.KeyPath (keyPEMOf lib key) 0o600)).store
            cm.KeyPath (keyPEMOf lib key) 0o600) := by
      rw [he, hr]
    have hkdata : ((EnsureCertificate lib ext cm w).2.files cm.KeyPath).map File.data =
        some (keyPEMOf lib key) := by
      rw [hE]; simp [World.store, World.log]
    have hcdata : cm.CertPath ≠ cm.KeyPath →
        ((EnsureCertificate lib ext cm w).2.files cm.CertPath).map File.data =
          some resp.Result.Certificate := by
      intro hd
      rw [hE]; simp [World.store, World.log, hd]
    have hrf : (EnsureCertificate lib ext cm w).2.readFault = w.readFault := by
      rw [hE]; rfl
    have htr : Event.httpPost (signingPost lib cm fca.data csr) ∈
        (EnsureCertificate lib ext cm w).2.trace := by
      rw [hE]; simp [World.store, World.log]
    cases hfk : (EnsureCertificate lib ext cm w).2.files cm.KeyPath with
    | none => rw [hfk] at hkdata; simp at hkdata
    | some fk =>
      rw [hfk] at hkdata
      simp only [Option.map_some', Option.some.injEq] at hkdata
      by_cases hd : cm.CertPath = cm.KeyPath
      · have hfc : (EnsureCertificate lib ext cm w).2.files cm.CertPath = some fk := by
          rw [hd]; exact hfk
        have hload := tlsLoadX509KeyPair_present lib cm.CertPath cm.KeyPath
          (EnsureCertificate lib ext cm w).2 fk fk hfc hfk
        rw [hrf] at hload
        exact ⟨fk, fk, hfc, rfl, hload, Or.inr ⟨hv, key, csr, fca, body, resp, hgen, hca, hpost,
          htr, hjson, hsucc, hkdata, fun hne => absurd hd hne, fun _ => rfl⟩⟩
      · have hc2 := hcdata hd
        cases hfc : (EnsureCertificate lib ext cm w).2.files cm.CertPath with
        | none => rw [hfc] at hc2; simp at hc2
        | some fc =>
          rw [hfc] at hc2
          simp only [Option.map_some', Option.some.injEq] at hc2
          have hload := tlsLoadX509KeyPair_present lib cm.CertPath cm.KeyPath
            (EnsureCertificate lib ext cm w).2 fc fk hfc hfk
          rw [hrf] at hload
          exact ⟨fc, fk, rfl, rfl, hload, Or.inr ⟨hv, key, csr, fca, body, resp, hgen, hca,
            hpost, htr, hjson, hsucc, hkdata, fun _ => hc2, fun he2 => absurd he2 hd⟩⟩

/-- C7 (amended) at concrete inputs: the valid credential of the concrete
world, and the concrete world without client files, in which the credential
is regenerated. -/
theorem EnsureCertificate_success_state_witness :
    (∃ fc fk : File,
      (EnsureCertificate demoLib demoExt demoCM
        (demoWorld (some demoCertFile) (some demoKeyFile))).2.files demoCM.CertPath = some fc ∧
      (EnsureCertificate demoLib demoExt demoCM
        (demoWorld (some demoCertFile) (some demoKeyFile))).2.files demoCM.KeyPath = some fk) ∧
    (∃ fc fk : File,
      (EnsureCertificate demoLib demoExt demoCM (demoWorld none none)).2.files demoCM.CertPath =
        some fc ∧
      (EnsureCertificate demoLib demoExt demoCM (demoWorld none none)).2.files demoCM.KeyPath =
        some fk) :=
  ⟨(EnsureCertificate_success_state demoLib demoExt demoCM
      (demoWorld (some demoCertFile) (some demoKeyFile)) (by decide)).elim
      (fun fc h => h.elim (fun fk h2 => ⟨fc, fk, h2.1, h2.2.1⟩)),
   (EnsureCertificate_success_state demoLib demoExt demoCM (demoWorld none none)
      (by decide)).elim
      (fun fc h => h.elim (fun fk h2 => ⟨fc, fk, h2.1, h2.2.1⟩))⟩

/-! ## C8 -/

/-- C8 (the code at the failing input): the certificate file is absent and a
key file exists with mode 0644. `EnsureCertificate` succeeds; the certificate
file is created with mode 0600, but the key file, now holding the PEM of the
freshly generated key, still has mode 0644, which has group and world read
bits: `os.WriteFile` applies its permission argument only when it creates the
file. -/
theorem EnsureCertificate_existing_key_keeps_mode :
    (EnsureCertificate demoLib demoExt demoCM
      (demoWorld none (some { data := [45, 82, 9], mode := 0o644 }))).1 = none ∧
    (EnsureCertificate demoLib demoExt demoCM
      (demoWorld none (some { data := [45, 82, 9], mode := 0o644 }))).2.files (str "client.crt") =
        some { data := [45, 67, 7, 200], mode := 0o600 } ∧
    (EnsureCertificate demoLib demoExt demoCM
      (demoWorld none (some { data := [45, 82, 9], mode := 0o644 }))).2.files (str "client.key") =
        some { data := keyPEMOf demoLib { bits := 2048, material := [7] }, mode := 0o644 } ∧
    (0o644 &&& 0o077 : Nat) ≠ 0 := by
  refine ⟨by decide, by decide, by decide, by decide⟩

/-- After a successful regeneration the key file has the mode it had before
when it existed, and the mode `0600 &^ umask` when it was created. -/
theorem EnsureCertificate_key_mode (lib : Lib) (ext : Ext) (cm : CertificateManager) (w : World)
    (hnv : ¬ credentialValid lib ext cm w) (hok : (EnsureCertificate lib ext cm w).1 = none) :
    ((EnsureCertificate lib ext cm w).2.files cm.KeyPath).map File.mode =
      some (match w.files cm.KeyPath with
        | some f => f.mode
        | none => createMode 0o600 w.umask) := by
  obtain ⟨pre, _, he⟩ := EnsureCertificate_not_valid lib ext cm w hnv
  rw [he] at hok
  obtain ⟨key, csr, fca, body, resp, hgen, hca, hcar, hpool, hpost, hjson, hsucc, hwc, hwk⟩ :=
    regenerate_ok_inv lib ext cm _ hok
  have hr := regenerate_signed lib ext cm { w with trace := w.trace ++ pre } fca key csr body
    resp hgen hca hcar hpool hpost hjson hsucc hwc hwk
  rw [he, hr]
  by_cases hd : cm.KeyPath = cm.CertPath
  · simp [World.store, World.log, hd]
  · simp [World.store, World.log, hd]

/-- A file created with permission argument 0600 has no group or world bit,
whatever the umask. -/
theorem createMode_owner_only (umask : Nat) : createMode 0o600 umask &&& 0o077 = 0 := by
  unfold createMode
  rw [Nat.land_comm (0o600) _, Nat.land_assoc]
  have h : (0o600 &&& 0o077 : Nat) = 0 := by decide
  rw [h, Nat.and_zero]

/-! ## C9 -/

/-- C9: when `GetTLSConfig` returns a configuration, its certificate list is
the one key pair that `tls.X509KeyPair` builds from the contents of the files
at CertPath and KeyPath, its root pool is non-nil (so the system trust store is
not consulted) and holds exactly the certificates parsed from the file at
CACertPath, and its minimum version is TLS 1.2 (0x0303); when the key pair
fails to load, the CA file cannot be read, or the CA file yields no
certificate, it returns an error, hence no configuration. -/
theorem GetTLSConfig_spec (lib : Lib) (cm : CertificateManager) (w : World) :
    (∀ cfg : TLSConfig, (GetTLSConfig lib cm w).1 = .ok cfg →
      ∃ (fc fk fca : File) (cert : TLSCertificate),
        w.files cm.CertPath = some fc ∧ w.files cm.KeyPath = some fk ∧
        w.files cm.CACertPath = some fca ∧
        lib.x509KeyPair fc.data fk.data = .ok cert ∧
        cfg.Certificates = [cert] ∧ cfg.Certificates.length = 1 ∧
        cfg.RootCAs = some (lib.certsFromPEM fca.data) ∧
        cfg.MinVersion = 0x0303) ∧
    (∀ e : GoError, (tlsLoadX509KeyPair lib cm.CertPath cm.KeyPath w).1 = .error e →
      (GetTLSConfig lib cm w).1 =
        .error (errorf "failed to load client certificate: " e.msg)) ∧
    ((w.files cm.CACertPath = none ∨ ∃ e, w.readFault cm.CACertPath = some e) →
      ∃ e, (GetTLSConfig lib cm w).1 = .error e) ∧
    (∀ fca : File, w.files cm.CACertPath = some fca → lib.certsFromPEM fca.data = [] →
      ∃ e, (GetTLSConfig lib cm w).1 = .error e) := by
  have hload : ∀ e : GoError, (tlsLoadX509KeyPair lib cm.CertPath cm.KeyPath w).1 = .error e →
      (GetTLSConfig lib cm w).1 =
        .error (errorf "failed to load client certificate: " e.msg) := by
    intro e he
    unfold GetTLSConfig
    rcases hl : tlsLoadX509KeyPair lib cm.CertPath cm.KeyPath w with ⟨r, w1⟩
    rw [hl] at he
    simp only at he
    subst he
    rfl
  have hfiles : (tlsLoadX509KeyPair lib cm.CertPath cm.KeyPath w).2.sameFS w := by
    unfold tlsLoadX509KeyPair osReadFile
    cases w.files cm.CertPath with
    | none => exact ⟨rfl, rfl, rfl, rfl⟩
    | some fc =>
      cases w.readFault cm.CertPath with
      | some e => exact ⟨rfl, rfl, rfl, rfl⟩
      | none =>
        simp only [World.log]
        cases w.files cm.KeyPath with
        | none => exact ⟨rfl, rfl, rfl, rfl⟩
        | some fk =>
          cases w.readFault cm.KeyPath with
          | some e => exact ⟨rfl, rfl, rfl, rfl⟩
          | none => exact ⟨rfl, rfl, rfl, rfl⟩
  have hca : ∀ cert w1, tlsLoadX509KeyPair lib cm.CertPath cm.KeyPath w = (.ok cert, w1) →
      (w.files cm.CACertPath = none ∨ (∃ e, w.readFault cm.CACertPath = some e) ∨
        ∃ fca, w.files cm.CACertPath = some fca ∧ lib.certsFromPEM fca.data = []) →
      ∃ e, (GetTLSConfig lib cm w).1 = .error e := by
    intro cert w1 hl hbad
    have hs := hfiles
    rw [hl] at hs
    obtain ⟨hf, _, hr, _⟩ := hs
    simp only at hf hr
    rcases hbad with h | ⟨e, h⟩ | ⟨fca, h, hp⟩
    · simp [GetTLSConfig, hl, LoadCACert, osReadFile, hf, h]
    · cases hc : w.files cm.CACertPath with
      | none => simp [GetTLSConfig, hl, LoadCACert, osReadFile, hf, hc]
      | some fca => simp [GetTLSConfig, hl, LoadCACert, osReadFile, hf, hr, hc, h]
    · cases hc : w.readFault cm.CACertPath with
      | some e => simp [GetTLSConfig, hl, LoadCACert, osReadFile, hf, hr, hc, h]
      | none => simp [GetTLSConfig, hl, LoadCACert, osReadFile, hf, hr, hc, h, hp]
  have hbad : (w.files cm.CACertPath = none ∨ (∃ e, w.readFault cm.CACertPath = some e) ∨
        ∃ fca, w.files cm.CACertPath = some fca ∧ lib.certsFromPEM fca.data = []) →
      ∃ e, (GetTLSConfig lib cm w).1 = .error e := by
    intro hb
    rcases hl : tlsLoadX509KeyPair lib cm.CertPath cm.KeyPath w with ⟨r, w1⟩
    cases r with
    | error e => exact ⟨_, hload e (by rw [hl])⟩
    | ok cert => exact hca cert w1 hl hb
  refine ⟨?_, hload, ?_, ?_⟩
  · intro cfg hcfg
    cases hc : w.files cm.CertPath with
    | none => simp [GetTLSConfig, tlsLoadX509KeyPair, osReadFile, hc] at hcfg
    | some fc =>
      cases hrc : w.readFault cm.CertPath with
      | some e => simp [GetTLSConfig, tlsLoadX509KeyPair, osReadFile, hc, hrc] at hcfg
      | none =>
        cases hk : w.files cm.KeyPath with
        | none => simp [GetTLSConfig, tlsLoadX509KeyPair, osReadFile, World.log, hc, hrc, hk] at hcfg
        | some fk =>
          cases hrk : w.readFault cm.KeyPath with
          | some e =>
            simp [GetTLSConfig, tlsLoadX509KeyPair, osReadFile, World.log, hc, hrc, hk, hrk] at hcfg
          | none =>
            cases hx : lib.x509KeyPair fc.data fk.data with
            | error e =>
              simp [GetTLSConfig, tlsLoadX509KeyPair, osReadFile, World.log, hc, hrc, hk, hrk,
                hx] at hcfg
            | ok cert =>
              cases hca2 : w.files cm.CACertPath with
              | none =>
                simp [GetTLSConfig, tlsLoadX509KeyPair, LoadCACert, osReadFile, World.log, hc, hrc,
                  hk, hrk, hx, hca2] at hcfg
              | some fca =>
                cases hra : w.readFault cm.CACertPath with
                | some e =>
                  simp [GetTLSConfig, tlsLoadX509KeyPair, LoadCACert, osReadFile, World.log, hc,
                    hrc, hk, hrk, hx, hca2, hra] at hcfg
                | none =>
                  by_cases hp : lib.certsFromPEM fca.data = []
                  · simp [GetTLSConfig, tlsLoadX509KeyPair, LoadCACert, osReadFile, World.log, hc,
                      hrc, hk, hrk, hx, hca2, hra, hp] at hcfg
                  · simp [GetTLSConfig, tlsLoadX509KeyPair, LoadCACert, osReadFile, World.log, hc,
                      hrc, hk, hrk, hx, hca2, hra, hp] at hcfg
                    refine ⟨fc, fk, fca, cert, rfl, rfl, rfl, hx, ?_⟩
                    subst hcfg
                    exact ⟨rfl, rfl, rfl, rfl⟩
  · intro h
    rcases h with h | h
    · exact hbad (Or.inl h)
    · exact hbad (Or.inr (Or.inl h))
  · intro fca hf hp
    exact hbad (Or.inr (Or.inr ⟨fca, hf, hp⟩))

/-- C9 at a concrete input: the valid credential of the concrete world loads
into a configuration with one certificate, the CA file's certificate as root
pool and minimum version TLS 1.2. -/
theorem GetTLSConfig_spec_witness :
    ∃ (fc fk fca : File) (cert : TLSCertificate),
      (demoWorld (some demoCertFile) (some demoKeyFile)).files demoCM.CertPath = some fc ∧
      (demoWorld (some demoCertFile) (some demoKeyFile)).files demoCM.KeyPath = some fk ∧
      (demoWorld (some demoCertFile) (some demoKeyFile)).files demoCM.CACertPath = some fca ∧
      demoLib.x509KeyPair fc.data fk.data = .ok cert ∧
      ({ Certificates := [{ Certificate := [[7, 200]], PrivateKey := [7] }],
         RootCAs := some [{ NotBefore := 0, NotAfter := 250, Raw := [1, 250] }],
         MinVersion := 0x0303 } : TLSConfig).Certificates = [cert] ∧
      ({ Certificates := [{ Certificate := [[7, 200]], PrivateKey := [7] }],
         RootCAs := some [{ NotBefore := 0, NotAfter := 250, Raw := [1, 250] }],
         MinVersion := 0x0303 } : TLSConfig).Certificates.length = 1 ∧
      ({ Certificates := [{ Certificate := [[7, 200]], PrivateKey := [7] }],
         RootCAs := some [{ NotBefore := 0, NotAfter := 250, Raw := [1, 250] }],
         MinVersion := 0x0303 } : TLSConfig).RootCAs = some (demoLib.certsFromPEM fca.data) ∧
      ({ Certificates := [{ Certificate := [[7, 200]], PrivateKey := [7] }],
         RootCAs := some [{ NotBefore := 0, NotAfter := 250, Raw := [1, 250] }],
         MinVersion := 0x0303 } : TLSConfig).MinVersion = 0x0303 :=
  (GetTLSConfig_spec demoLib demoCM (demoWorld (some demoCertFile) (some demoKeyFile))).1
    { Certificates := [{ Certificate := [[7, 200]], PrivateKey := [7] }],
      RootCAs := some [{ NotBefore := 0, NotAfter := 250, Raw := [1, 250] }],
      MinVersion := 0x0303 } rfl

/-! ## C10 -/

/-- C10: for every base URL and CSR, when the CA file is readable and yields
a certificate, the effects of `requestCertFromCFSSL` are the read of the CA
file and exactly one POST, whose URL is the base URL followed by
`/api/v1/cfssl/sign`, whose content type is `application/json`, whose body is
the JSON object with the single key `certificate_request` and the CSR PEM text
as its (JSON-encoded) value, sent by a client with a timeout of 10 seconds;
when the CA file is missing, unreadable or yields no certificate, the only
effect is the read of the CA file and an error is returned. -/
theorem requestCertFromCFSSL_request (lib : Lib) (ext : Ext) (cm : CertificateManager)
    (csrPEM : GoString) (w : World) :
    (∀ fca : File, w.files cm.CACertPath = some fca → w.readFault cm.CACertPath = none →
      lib.certsFromPEM fca.data ≠ [] →
      ∃ req : HTTPPost,
        (requestCertFromCFSSL lib ext cm csrPEM w).2.trace =
          w.trace ++ [.readFile cm.CACertPath, .httpPost req] ∧
        (List.filter Event.isNetwork [.readFile cm.CACertPath, .httpPost req]).length = 1 ∧
        req.url = cm.CFSSLApiURL ++ str "/api/v1/cfssl/sign" ∧
        req.contentType = str "application/json" ∧
        req.body = str "\x7b\"certificate_request\":" ++ lib.jsonString csrPEM ++ str "\x7d" ∧
        req.client.Timeout = 10 * 1000000000) ∧
    ((w.files cm.CACertPath = none ∨ (∃ e, w.readFault cm.CACertPath = some e) ∨
        ∃ fca, w.files cm.CACertPath = some fca ∧ lib.certsFromPEM fca.data = []) →
      (requestCertFromCFSSL lib ext cm csrPEM w).2.trace = w.trace ++ [.readFile cm.CACertPath] ∧
      (∀ e ∈ [Event.readFile cm.CACertPath], e.isNetwork = false) ∧
      ∃ e, (requestCertFromCFSSL lib ext cm csrPEM w).1 = .error e) := by
  refine ⟨?_, ?_⟩
  · intro fca hca hcar hpool
    refine ⟨signingPost lib cm fca.data csrPEM, ?_, rfl, rfl, rfl, rfl, rfl⟩
    cases hpost : ext.post (signingPost lib cm fca.data csrPEM) with
    | error e =>
      have hpost2 := hpost
      simp only [signingPost] at hpost2
      simp [requestCertFromCFSSL, osReadFile, httpPost, World.log, hca, hcar, hpool, hpost2,
        signingPost]
    | ok body =>
      have hpost2 := hpost
      simp only [signingPost] at hpost2
      cases hjson : lib.jsonUnmarshal body with
      | error e =>
        simp [requestCertFromCFSSL, osReadFile, httpPost, World.log, hca, hcar, hpool, hpost2,
          hjson, signingPost]
      | ok resp =>
        rw [requestCertFromCFSSL_answered lib ext cm csrPEM w fca body resp hca hcar hpool
          hpost hjson]
  · intro hbad
    refine ⟨?_, ?_, ?_⟩
    · rcases hbad with h | ⟨e, h⟩ | ⟨fca, h, hp⟩
      · simp [requestCertFromCFSSL, osReadFile, World.log, h]
      · cases hc : w.files cm.CACertPath with
        | none => simp [requestCertFromCFSSL, osReadFile, World.log, hc]
        | some fca => simp [requestCertFromCFSSL, osReadFile, World.log, hc, h]
      · cases hc : w.readFault cm.CACertPath with
        | some e => simp [requestCertFromCFSSL, osReadFile, World.log, hc, h]
        | none => simp [requestCertFromCFSSL, osReadFile, World.log, hc, h, hp]
    · intro e he
      simp only [List.mem_singleton] at he
      subst he
      rfl
    · rcases hbad with h | ⟨e, h⟩ | ⟨fca, h, hp⟩
      · simp [requestCertFromCFSSL, osReadFile, World.log, h]
      · cases hc : w.files cm.CACertPath with
        | none => simp [requestCertFromCFSSL, osReadFile, World.log, hc]
        | some fca => simp [requestCertFromCFSSL, osReadFile, World.log, hc, h]
      · cases hc : w.readFault cm.CACertPath with
        | some e => simp [requestCertFromCFSSL, osReadFile, World.log, hc, h]
        | none => simp [requestCertFromCFSSL, osReadFile, World.log, hc, h, hp]

/-- C10 at a concrete input: the concrete CA file yields a certificate, and
the request goes to `https://ca.local:8888/api/v1/cfssl/sign`. -/
theorem requestCertFromCFSSL_request_witness :
    ∃ req : HTTPPost,
      (requestCertFromCFSSL demoLib demoExt demoCM [45, 67, 7] (demoWorld none none)).2.trace =
        (demoWorld none none).trace ++ [.readFile demoCM.CACertPath, .httpPost req] ∧
      (List.filter Event.isNetwork [.readFile demoCM.CACertPath, .httpPost req]).length = 1 ∧
      req.url = demoCM.CFSSLApiURL ++ str "/api/v1/cfssl/sign" ∧
      req.contentType = str "application/json" ∧
      req.body = str "\x7b\"certificate_request\":" ++ demoLib.jsonString [45, 67, 7] ++
        str "\x7d" ∧
      req.client.Timeout = 10 * 1000000000 :=
  (requestCertFromCFSSL_request demoLib demoExt demoCM [45, 67, 7] (demoWorld none none)).1
    { data := [45, 67, 1, 250], mode := 0o644 } (by decide) rfl (by decide)

/-! ## C11 -/

/-- The type check of the schedule command is a substring test: for a
workload with a name and a type, the command exits with the type error exactly
when the type is not a substring of
`docker-container,docker-compose,git-compose`. -/
theorem scheduleValidate_type_error_iff (workload : Workload)
    (hn : workload.Name ≠ []) (ht : workload.Typ ≠ []) :
    scheduleValidate workload =
        some (errorf "type must be docker-container, docker-compose, or git-compose" []) ↔
      ¬ (workload.Typ <:+: str "docker-container,docker-compose,git-compose") := by
  have h1 : errorf "image and command required for docker-container" [] ≠
      errorf "type must be docker-container, docker-compose, or git-compose" [] := by decide
  have h2 : errorf "local-path required for docker-compose" [] ≠
      errorf "type must be docker-container, docker-compose, or git-compose" [] := by decide
  have h3 : errorf "git-repo required for git-compose" [] ≠
      errorf "type must be docker-container, docker-compose, or git-compose" [] := by decide
  unfold scheduleValidate stringsContains
  rw [if_neg (by simp [hn, ht])]
  by_cases hin : workload.Typ <:+: str "docker-container,docker-compose,git-compose"
  · simp only [hin, decide_True, Bool.not_true, Bool.false_eq_true, if_false, not_true_eq_false,
      iff_false]
    split
    · simpa using h1
    · split
      · simpa using h2
      · split
        · simpa using h3
        · simp
  · simp [hin]

/-- C11 (the code at the failing inputs): the types `docker`, `compose` and
`,` are none of the three workload types, yet the checks of the schedule
command pass for them, because each is a substring of
`docker-container,docker-compose,git-compose`; with the type `docker` the
command goes on to `client.NewClient`, which stats and reads the credential
files and returns a client. -/
theorem scheduleValidate_accepts_substrings :
    scheduleValidate (demoWorkload (str "w") (str "docker") []) = none ∧
    scheduleValidate (demoWorkload (str "w") (str "compose") []) = none ∧
    scheduleValidate (demoWorkload (str "w") (str ",") []) = none ∧
    (scheduleRun demoLib demoExt (demoCfg (str "https://api.local"))
      (demoWorkload (str "w") (str "docker") [])
      (demoWorld (some demoCertFile) (some demoKeyFile))).1.isError = false ∧
    (scheduleRun demoLib demoExt (demoCfg (str "https://api.local"))
      (demoWorkload (str "w") (str "docker") [])
      (demoWorld (some demoCertFile) (some demoKeyFile))).2.trace =
        [.stat (str "client.crt"), .stat (str "client.key"), .readFile (str "client.crt"),
         .readFile (str "client.crt"), .readFile (str "client.key"), .readFile (str "ca.crt")] := by
  refine ⟨by decide, by decide, by decide, by decide, by decide⟩

/-! ## C12 -/

theorem regenerate_cert_write_fails (lib : Lib) (ext : Ext) (cm : CertificateManager) (w : World)
    (fca : File) (key : PrivateKey) (csr body : GoString) (resp : cfsslSignResponse)
    (e : GoError)
    (hgen : generateKeyAndCSR lib ext cm = .ok (key, csr))
    (hca : w.files cm.CACertPath = some fca) (hcar : w.readFault cm.CACertPath = none)
    (hpool : lib.certsFromPEM fca.data ≠ [])
    (hpost : ext.post (signingPost lib cm fca.data csr) = .ok body)
    (hjson : lib.jsonUnmarshal body = .ok resp) (hsucc : resp.Success = true)
    (hwc : (w.writeFault cm.CertPath).err = some e) :
    (regenerate lib ext cm w).1 = some e ∧
    (regenerate lib ext cm w).2.trace = w.trace ++
      [Event.readFile cm.CACertPath, Event.httpPost (signingPost lib cm fca.data csr),
       Event.writeFile cm.CertPath resp.Result.Certificate 0o600] ∧
    (∀ q, q ≠ cm.CertPath → (regenerate lib ext cm w).2.files q = w.files q) := by
  have hq := requestCertFromCFSSL_answered lib ext cm csr w fca body resp
    hca hcar hpool hpost hjson
  simp only [hsucc, if_true] at hq
  cases hf : w.writeFault cm.CertPath with
  | none => rw [hf] at hwc; simp [WriteFault.err] at hwc
  | openFails e2 =>
    rw [hf] at hwc
    simp only [WriteFault.err, Option.some.injEq] at hwc
    subst hwc
    simp [regenerate, hgen, hq, osWriteFile, World.log, hf]
  | writeFails e2 n =>
    rw [hf] at hwc
    simp only [WriteFault.err, Option.some.injEq] at hwc
    subst hwc
    refine ⟨?_, ?_, ?_⟩
    · simp [regenerate, hgen, hq, osWriteFile, World.log, World.store, hf]
    · simp [regenerate, hgen, hq, osWriteFile, World.log, World.store, hf]
    · intro q hqne
      simp [regenerate, hgen, hq, osWriteFile, World.log, World.store, hf, hqne]

theorem regenerate_key_write_fails (lib : Lib) (ext : Ext) (cm : CertificateManager) (w : World)
    (fca : File) (key : PrivateKey) (csr body : GoString) (resp : cfsslSignResponse)
    (e : GoError)
    (hgen : generateKeyAndCSR lib ext cm = .ok (key, csr))
    (hca : w.files cm.CACertPath = some fca) (hcar : w.readFault cm.CACertPath = none)
    (hpool : lib.certsFromPEM fca.data ≠ [])
    (hpost : ext.post (signingPost lib cm fca.data csr) = .ok body)
    (hjson : lib.jsonUnmarshal body = .ok resp) (hsucc : resp.Success = true)
    (hwc : w.writeFault cm.CertPath = .none)
    (hwk : (w.writeFault cm.KeyPath).err = some e) :
    (regenerate lib ext cm w).1 = some e ∧
    (regenerate lib ext cm w).2.trace = w.trace ++
      [Event.readFile cm.CACertPath, Event.httpPost (signingPost lib cm fca.data csr),
       Event.writeFile cm.CertPath resp.Result.Certificate 0o600,
       Event.writeFile cm.KeyPath (keyPEMOf lib key) 0o600] ∧
    (cm.CertPath ≠ cm.KeyPath →
      ((regenerate lib ext cm w).2.files cm.CertPath).map File.data =
        some resp.Result.Certificate) := by
  have hq := requestCertFromCFSSL_answered lib ext cm csr w fca body resp
    hca hcar hpool hpost hjson
  simp only [hsucc, if_true] at hq
  cases hf : w.writeFault cm.KeyPath with
  | none => rw [hf] at hwk; simp [WriteFault.err] at hwk
  | openFails e2 =>
    rw [hf] at hwk
    simp only [WriteFault.err, Option.some.injEq] at hwk
    subst hwk
    refine ⟨?_, ?_, ?_⟩
    · simp [regenerate, hgen, hq, osWriteFile, World.log, World.store, hwc, hf]
    · simp [regenerate, hgen, hq, osWriteFile, World.log, World.store, hwc, hf, keyPEMOf]
    · intro hd
      simp [regenerate, hgen, hq, osWriteFile, World.log, World.store, hwc, hf]
  | writeFails e2 n =>
    rw [hf] at hwk
    simp only [WriteFault.err, Option.some.injEq] at hwk
    subst hwk
    refine ⟨?_, ?_, ?_⟩
    · simp [regenerate, hgen, hq, osWriteFile, World.log, World.store, hwc, hf]
    · simp [regenerate, hgen, hq, osWriteFile, World.log, World.store, hwc, hf, keyPEMOf]
    · intro hd
      simp [regenerate, hgen, hq, osWriteFile, World.log, World.store, hwc, hf, hd]

/-- C12: when `EnsureCertificate` reaches the persist step (no valid
credential, key and CSR generated, signing response with `success` true), it
writes the certificate file first and the key file second. If the certificate
write fails, its error is returned, the key file is not written (the last
effect is the write of the certificate path) and the file at the key path is
as before; if the certificate write succeeds and the key write fails, its
error is returned and the certificate path already holds the new certificate;
if both succeed the result is success. The two paths are taken to name
distinct files. -/
theorem EnsureCertificate_write_order (lib : Lib) (ext : Ext) (cm : CertificateManager)
    (w : World) (fca : File) (key : PrivateKey) (csr body : GoString)
    (resp : cfsslSignResponse)
    (hnv : ¬ credentialValid lib ext cm w)
    (hgen : generateKeyAndCSR lib ext cm = .ok (key, csr))
    (hca : w.files cm.CACertPath = some fca) (hcar : w.readFault cm.CACertPath = none)
    (hpool : lib.certsFromPEM fca.data ≠ [])
    (hpost : ext.post (signingPost lib cm fca.data csr) = .ok body)
    (hjson : lib.jsonUnmarshal body = .ok resp) (hsucc : resp.Success = true)
    (hdist : cm.CertPath ≠ cm.KeyPath) :
    (∀ e, (w.writeFault cm.CertPath).err = some e →
      (EnsureCertificate lib ext cm w).1 = some e ∧
      (EnsureCertificate lib ext cm w).2.files cm.KeyPath = w.files cm.KeyPath ∧
      ∃ pre, pre <+: checkEvents cm ∧
        (EnsureCertificate lib ext cm w).2.trace = w.trace ++ (pre ++
          [Event.readFile cm.CACertPath, Event.httpPost (signingPost lib cm fca.data csr),
           Event.writeFile cm.CertPath resp.Result.Certificate 0o600])) ∧
    (∀ e, w.writeFault cm.CertPath = .none → (w.writeFault cm.KeyPath).err = some e →
      (EnsureCertificate lib ext cm w).1 = some e ∧
      ((EnsureCertificate lib ext cm w).2.files cm.CertPath).map File.data =
        some resp.Result.Certificate ∧
      ∃ pre, pre <+: checkEvents cm ∧
        (EnsureCertificate lib ext cm w).2.trace = w.trace ++ (pre ++
          [Event.readFile cm.CACertPath, Event.httpPost (signingPost lib cm fca.data csr),
           Event.writeFile cm.CertPath resp.Result.Certificate 0o600,
           Event.writeFile cm.KeyPath (keyPEMOf lib key) 0o600])) ∧
    (w.writeFault cm.CertPath = .none → w.writeFault cm.KeyPath = .none →
      (EnsureCertificate lib ext cm w).1 = none ∧
      ∃ pre, pre <+: checkEvents cm ∧
        (EnsureCertificate lib ext cm w).2.trace = w.trace ++ (pre ++
          [Event.readFile cm.CACertPath, Event.httpPost (signingPost lib cm fca.data csr),
           Event.writeFile cm.CertPath resp.Result.Certificate 0o600,
           Event.writeFile cm.KeyPath (keyPEMOf lib key) 0o600])) := by
  obtain ⟨pre, hpre, he⟩ := EnsureCertificate_not_valid lib ext cm w hnv
  refine ⟨?_, ?_, ?_⟩
  · intro e hwc
    obtain ⟨h1, h2, h3⟩ := regenerate_cert_write_fails lib ext cm
      { w with trace := w.trace ++ pre } fca key csr body resp e hgen hca hcar hpool hpost hjson
      hsucc hwc
    rw [he]
    refine ⟨h1, h3 cm.KeyPath (fun h => hdist h.symm), pre, hpre, ?_⟩
    rw [h2]
    simp
  · intro e hwc hwk
    obtain ⟨h1, h2, h3⟩ := regenerate_key_write_fails lib ext cm
      { w with trace := w.trace ++ pre } fca key csr body resp e hgen hca hcar hpool hpost hjson
      hsucc hwc hwk
    rw [he]
    refine ⟨h1, h3 hdist, pre, hpre, ?_⟩
    rw [h2]
    simp
  · intro hwc hwk
    have hr := regenerate_signed lib ext cm { w with trace := w.trace ++ pre } fca key csr body
      resp hgen hca hcar hpool hpost hjson hsucc hwc hwk
    rw [he, hr]
    refine ⟨rfl, pre, hpre, ?_⟩
    simp [World.store, World.log]

/-- C12 at a concrete input: no client files on disk and the write of
`client.crt` fails on open with `permission denied`. -/
theorem EnsureCertificate_write_order_witness :
    (EnsureCertificate demoLib demoExt demoCM
      (demoFaultyWorld (str "client.crt") (.openFails ⟨str "permission denied"⟩))).1 =
        some ⟨str "permission denied"⟩ ∧
    (EnsureCertificate demoLib demoExt demoCM
      (demoFaultyWorld (str "client.crt") (.openFails ⟨str "permission denied"⟩))).2.files
        demoCM.KeyPath =
      (demoFaultyWorld (str "client.crt") (.openFails ⟨str "permission denied"⟩)).files
        demoCM.KeyPath ∧
    ∃ pre, pre <+: checkEvents demoCM ∧
      (EnsureCertificate demoLib demoExt demoCM
        (demoFaultyWorld (str "client.crt") (.openFails ⟨str "permission denied"⟩))).2.trace =
        (demoFaultyWorld (str "client.crt") (.openFails ⟨str "permission denied"⟩)).trace ++
          (pre ++
            [Event.readFile demoCM.CACertPath,
             Event.httpPost
               (signingPost demoLib demoCM [45, 67, 1, 250] [45, 67, 7]),
             Event.writeFile demoCM.CertPath [45, 67, 7, 200] 0o600]) :=
  (EnsureCertificate_write_order demoLib demoExt demoCM
    (demoFaultyWorld (str "client.crt") (.openFails ⟨str "permission denied"⟩))
    { data := [45, 67, 1, 250], mode := 0o644 } { bits := 2048, material := [7] } [45, 67, 7]
    [116, 45, 67, 7, 200] { Success := true, Result := { Certificate := [45, 67, 7, 200] } }
    (by
      rintro ⟨fc, _, _, _, hc, _⟩
      have hnone : (demoFaultyWorld (str "client.crt")
          (.openFails ⟨str "permission denied"⟩)).files demoCM.CertPath = none := by decide
      rw [hnone] at hc
      cases hc)
    rfl (by decide) rfl (by decide) rfl rfl rfl (by decide)).1
    ⟨str "permission denied"⟩ (by decide)

/-! ## Splitting -/

theorem str_comma : str "," = [44] := by decide

theorem str_equals : str "=" = [61] := by decide

theorem stringsIndex_singleton (c : UInt8) (s : GoString) :
    (c ∉ s ∧ stringsIndex s [c] = none) ∨
    ∃ a b, s = a ++ c :: b ∧ c ∉ a ∧ stringsIndex s [c] = some a.length := by
  induction s with
  | nil =>
    left
    simp [stringsIndex, List.isPrefixOf]
  | cons x rest ih =>
    by_cases hx : c = x
    · right
      exact ⟨[], rest, by simp [hx], by simp, by simp [stringsIndex, List.isPrefixOf, hx]⟩
    · rcases ih with ⟨hn, hi⟩ | ⟨a, b, hs, ha, hi⟩
      · left
        exact ⟨by simp [hx, hn], by simp [stringsIndex, List.isPrefixOf, hx, hi]⟩
      · right
        exact ⟨x :: a, b, by simp [hs], by simp [hx, ha],
          by simp [stringsIndex, List.isPrefixOf, hx, hi]⟩

theorem bindsKey_unique (c : UInt8) (g k v k2 v2 : GoString)
    (h1 : bindsKey c g k v) (h2 : bindsKey c g k2 v2) : k = k2 ∧ v = v2 := by
  obtain ⟨hg, hk⟩ := h1
  obtain ⟨hg2, hk2⟩ := h2
  rw [hg] at hg2
  clear hg
  induction k generalizing k2 with
  | nil =>
    cases k2 with
    | nil => simpa using hg2
    | cons y k2t =>
      simp only [List.nil_append, List.cons_append, List.cons.injEq] at hg2
      exact absurd (by simp [hg2.1]) hk2
  | cons x kt ih =>
    cases k2 with
    | nil =>
      simp only [List.nil_append, List.cons_append, List.cons.injEq] at hg2
      exact absurd (by simp [hg2.1]) hk
    | cons y k2t =>
      simp only [List.cons_append, List.cons.injEq] at hg2
      have hkt : c ∉ kt := fun h => hk (List.mem_cons_of_mem _ h)
      have hk2t : c ∉ k2t := fun h => hk2 (List.mem_cons_of_mem _ h)
      obtain ⟨e1, e2⟩ := ih k2t hkt hg2.2 hk2t
      exact ⟨by rw [hg2.1, e1], e2⟩

theorem bindsKey_mem (c : UInt8) (g k v : GoString) (h : bindsKey c g k v) : c ∈ g := by
  rw [h.1]
  simp

theorem genSplit_singleton (c : UInt8) (cuts : Nat) (s : GoString) (h : s.length ≤ cuts) :
    isSegmentation c s (genSplit cuts s [c]) := by
  induction cuts generalizing s with
  | zero =>
    have hs : s = [] := List.length_eq_zero.mp (Nat.le_zero.mp h)
    subst hs
    exact ⟨by simp [genSplit], by simp [genSplit], by simp [genSplit, List.intercalate]⟩
  | succ n ih =>
    rcases stringsIndex_singleton c s with ⟨hn, hi⟩ | ⟨a, b, hs, ha, hi⟩
    · exact ⟨by simp [genSplit, hi], by simp [genSplit, hi, hn],
        by simp [genSplit, hi, List.intercalate]⟩
    · have hb : b.length ≤ n := by
        rw [hs] at h
        simp only [List.length_append, List.length_cons] at h
        omega
      obtain ⟨hne, hall, hcat⟩ := ih b hb
      have htake : s.take a.length = a := by rw [hs]; simp
      have hdrop : s.drop (a.length + 1) = b := by
        rw [hs]
        rw [show a.length + 1 = a.length + 1 from rfl, ← List.drop_drop]
        simp
      have hgs : genSplit (n + 1) s [c] = a :: genSplit n b [c] := by
        simp [genSplit, hi, htake, hdrop]
      rw [hgs]
      refine ⟨by simp, ?_, ?_⟩
      · intro g hg
        rcases List.mem_cons.mp hg with h1 | h1
        · rw [h1]; exact ha
        · exact hall g h1
      · cases hrest : genSplit n b [c] with
        | nil => exact absurd hrest hne
        | cons g gs =>
          rw [hrest] at hcat
          rw [hs, ← hcat]
          simp [List.intercalate, List.intersperse]

theorem stringsSplit_isSegmentation (c : UInt8) (s : GoString) :
    isSegmentation c s (stringsSplit s [c]) :=
  genSplit_singleton c s.length s (Nat.le_refl _)

theorem stringsSplitN_two (c : UInt8) (g : GoString) :
    (c ∉ g → stringsSplitN g [c] 2 = [g]) ∧
    (∀ a b, g = a ++ c :: b → c ∉ a → stringsSplitN g [c] 2 = [a, b]) := by
  refine ⟨?_, ?_⟩
  · intro hn
    rcases stringsIndex_singleton c g with ⟨_, hi⟩ | ⟨a, b, hs, _, _⟩
    · cases g with
      | nil => simp [stringsSplitN, genSplit]
      | cons x rest => simp [stringsSplitN, genSplit, hi]
    · exact absurd (by rw [hs]; simp) hn
  · intro a b hs ha
    rcases stringsIndex_singleton c g with ⟨hn, _⟩ | ⟨a2, b2, hs2, ha2, hi⟩
    · exact absurd (by rw [hs]; simp) hn
    · obtain ⟨e1, e2⟩ := bindsKey_unique c g a b a2 b2 ⟨hs, ha⟩ ⟨hs2, ha2⟩
      subst e1
      subst e2
      have htake : g.take a.length = a := by rw [hs]; simp
      have hdrop : g.drop (a.length + 1) = b := by
        rw [hs, ← List.drop_drop]
        simp
      have hlen : min 2 (g.length + 1) - 1 = 1 := by
        rw [hs]
        simp only [List.length_append, List.length_cons]
        omega
      simp [stringsSplitN, hlen, genSplit, hi, htake, hdrop]

theorem intercalate_cons_cons (c : UInt8) (a b : GoString) (l : List GoString) :
    List.intercalate [c] (a :: b :: l) = a ++ c :: List.intercalate [c] (b :: l) := by
  simp [List.intercalate, List.intersperse]

theorem isSegmentation_unique (c : UInt8) (s : GoString) (segs1 segs2 : List GoString)
    (h1 : isSegmentation c s segs1) (h2 : isSegmentation c s segs2) : segs1 = segs2 := by
  induction segs1 generalizing s segs2 with
  | nil => exact absurd rfl h1.1
  | cons a as ih =>
    cases segs2 with
    | nil => exact absurd rfl h2.1
    | cons b bs =>
      obtain ⟨_, ha, hs1⟩ := h1
      obtain ⟨_, hb, hs2⟩ := h2
      have hca : c ∉ a := ha a (List.mem_cons_self _ _)
      have hcb : c ∉ b := hb b (List.mem_cons_self _ _)
      cases as with
      | nil =>
        cases bs with
        | nil =>
          simp only [List.intercalate, List.intersperse, List.flatten_cons, List.flatten_nil,
            List.append_nil] at hs1 hs2
          rw [hs1, hs2]
        | cons b2 bs2 =>
          rw [intercalate_cons_cons] at hs2
          simp only [List.intercalate, List.intersperse, List.flatten_cons, List.flatten_nil,
            List.append_nil] at hs1
          rw [← hs1] at hs2
          exact absurd (by rw [← hs2]; simp) hca
      | cons a2 as2 =>
        cases bs with
        | nil =>
          rw [intercalate_cons_cons] at hs1
          simp only [List.intercalate, List.intersperse, List.flatten_cons, List.flatten_nil,
            List.append_nil] at hs2
          rw [← hs2] at hs1
          exact absurd (by rw [← hs1]; simp) hcb
        | cons b2 bs2 =>
          rw [intercalate_cons_cons] at hs1 hs2
          obtain ⟨e1, e2⟩ := bindsKey_unique c s a _ b _ ⟨hs1.symm, hca⟩ ⟨hs2.symm, hcb⟩
          have hrec := ih (List.intercalate [c] (a2 :: as2)) (b2 :: bs2)
            ⟨by simp, fun g hg => ha g (List.mem_cons_of_mem _ hg), rfl⟩
            ⟨by simp, fun g hg => hb g (List.mem_cons_of_mem _ hg), e2.symm⟩
          rw [e1, hrec]

theorem envStep_spec (m : GoMap) (g k v : GoString) :
    (match stringsSplitN g (str "=") 2 with
      | [k0, v0] => m.set k0 v0
      | _ => m) k = some v ↔
      bindsKey 61 g k v ∨ (m k = some v ∧ ∀ v2, ¬ bindsKey 61 g k v2) := by
  rw [str_equals]
  rcases stringsIndex_singleton 61 g with ⟨hn, _⟩ | ⟨k0, v0, hs, hk0, _⟩
  · rw [(stringsSplitN_two 61 g).1 hn]
    have hno : ∀ k2 v2, ¬ bindsKey 61 g k2 v2 := fun k2 v2 hb => hn (bindsKey_mem 61 g k2 v2 hb)
    constructor
    · intro h
      exact Or.inr ⟨h, fun v2 => hno k v2⟩
    · rintro (hb | ⟨h, _⟩)
      · exact absurd hb (hno k v)
      · exact h
  · rw [(stringsSplitN_two 61 g).2 k0 v0 hs hk0]
    have hb0 : bindsKey 61 g k0 v0 := ⟨hs, hk0⟩
    by_cases hk : k = k0
    · subst hk
      simp only [GoMap.set, if_true]
      constructor
      · intro h
        cases h
        exact Or.inl hb0
      · rintro (hb | ⟨_, hno⟩)
        · rw [(bindsKey_unique 61 g k v k v0 hb hb0).2]
        · exact absurd hb0 (hno v0)
    · simp only [GoMap.set, if_neg hk]
      have hno : ∀ v2, ¬ bindsKey 61 g k v2 := fun v2 hb =>
        hk (bindsKey_unique 61 g k v2 k0 v0 hb hb0).1
      constructor
      · intro h
        exact Or.inr ⟨h, hno⟩
      · rintro (hb | ⟨h, _⟩)
        · exact absurd hb (hno v)
        · exact h

theorem foldl_lastWins (f : GoMap → GoString → GoMap)
    (hf : ∀ m g k v, f m g k = some v ↔
      bindsKey 61 g k v ∨ (m k = some v ∧ ∀ v2, ¬ bindsKey 61 g k v2))
    (segs : List GoString) (acc : GoMap) (k v : GoString) :
    (segs.foldl f acc) k = some v ↔
      (∃ pre g post, segs = pre ++ g :: post ∧ bindsKey 61 g k v ∧
        ∀ g2 ∈ post, ∀ v2, ¬ bindsKey 61 g2 k v2) ∨
      (acc k = some v ∧ ∀ g ∈ segs, ∀ v2, ¬ bindsKey 61 g k v2) := by
  induction segs generalizing acc with
  | nil => simp
  | cons g rest ih =>
    rw [List.foldl_cons, ih (f acc g), hf]
    constructor
    · rintro (⟨pre, g2, post, hs, hb, hn⟩ | ⟨hb | ⟨ha, hng⟩, hn⟩)
      · exact Or.inl ⟨g :: pre, g2, post, by simp [hs], hb, hn⟩
      · exact Or.inl ⟨[], g, rest, rfl, hb, hn⟩
      · refine Or.inr ⟨ha, ?_⟩
        intro g2 hg2
        rcases List.mem_cons.mp hg2 with h | h
        · rw [h]; exact hng
        · exact hn g2 h
    · rintro (⟨pre, g2, post, hs, hb, hn⟩ | ⟨ha, hn⟩)
      · cases pre with
        | nil =>
          simp only [List.nil_append, List.cons.injEq] at hs
          obtain ⟨e1, e2⟩ := hs
          subst e1
          subst e2
          exact Or.inr ⟨Or.inl hb, hn⟩
        | cons p pre2 =>
          simp only [List.cons_append, List.cons.injEq] at hs
          obtain ⟨_, e2⟩ := hs
          exact Or.inl ⟨pre2, g2, post, e2, hb, hn⟩
      · exact Or.inr ⟨Or.inr ⟨ha, hn g (List.mem_cons_self _ _)⟩,
          fun g2 h => hn g2 (List.mem_cons_of_mem _ h)⟩

theorem exists_last_binding (segs : List GoString) (k : GoString)
    (h : ∃ g ∈ segs, ∃ v, bindsKey 61 g k v) :
    ∃ pre g post v, segs = pre ++ g :: post ∧ bindsKey 61 g k v ∧
      ∀ g2 ∈ post, ∀ v2, ¬ bindsKey 61 g2 k v2 := by
  induction segs with
  | nil =>
    obtain ⟨g, hg, _⟩ := h
    simp at hg
  | cons g0 rest ih =>
    by_cases hrest : ∃ g ∈ rest, ∃ v, bindsKey 61 g k v
    · obtain ⟨pre, g, post, v, hs, hb, hn⟩ := ih hrest
      exact ⟨g0 :: pre, g, post, v, by simp [hs], hb, hn⟩
    · obtain ⟨g, hg, v, hb⟩ := h
      rcases List.mem_cons.mp hg with e | hmem
      · subst e
        exact ⟨[], g, rest, v, rfl, hb, fun g2 hg2 v2 hb2 => hrest ⟨g2, hg2, v2, hb2⟩⟩
      · exact absurd ⟨g, hmem, v, hb⟩ hrest

/-! ## C13 -/

/-- C13: for every input string, the pieces that `parseEnvVars` obtains by
splitting on `,` are the segments of the input between commas, and for these
segments: the result has a key `k` exactly when some segment contains `=`
with `k` the text before its first `=`; `k` is mapped to `v` exactly when `v`
is the text after the first `=` of the last such segment (so a value may
contain `=`, later duplicates win, and segments without `=` contribute
nothing). On `key1=value1,key2=value2` the result maps `key1` to `value1`,
`key2` to `value2` and has no other key. -/
theorem parseEnvVars_spec (envStr : GoString) :
    isSegmentation 44 envStr (stringsSplit envStr (str ",")) ∧
    (∀ segs, isSegmentation 44 envStr segs →
      (∀ k, (∃ v, parseEnvVars envStr k = some v) ↔
        ∃ g ∈ segs, ∃ v, bindsKey 61 g k v) ∧
      (∀ k v, parseEnvVars envStr k = some v ↔
        ∃ pre g post, segs = pre ++ g :: post ∧ bindsKey 61 g k v ∧
          ∀ g2 ∈ post, ∀ v2, ¬ bindsKey 61 g2 k v2)) ∧
    (∀ k, parseEnvVars (str "key1=value1,key2=value2") k =
      if k = str "key1" then some (str "value1")
      else if k = str "key2" then some (str "value2")
      else none) := by
  have hsplit : isSegmentation 44 envStr (stringsSplit envStr (str ",")) := by
    rw [str_comma]
    exact stringsSplit_isSegmentation 44 envStr
  have hmain : ∀ k v, parseEnvVars envStr k = some v ↔
      ∃ pre g post, stringsSplit envStr (str ",") = pre ++ g :: post ∧ bindsKey 61 g k v ∧
        ∀ g2 ∈ post, ∀ v2, ¬ bindsKey 61 g2 k v2 := by
    intro k v
    have h := foldl_lastWins
      (fun (envVars : GoMap) pair =>
        match stringsSplitN pair (str "=") 2 with
        | [k0, v0] => envVars.set k0 v0
        | _ => envVars)
      (fun m g k v => envStep_spec m g k v)
      (stringsSplit envStr (str ",")) (fun _ => none) k v
    simp only [false_and, or_false, reduceCtorEq] at h
    exact h
  refine ⟨hsplit, ?_, ?_⟩
  · intro segs hsegs
    have heq : segs = stringsSplit envStr (str ",") :=
      isSegmentation_unique 44 envStr _ _ hsegs hsplit
    subst heq
    refine ⟨?_, hmain⟩
    intro k
    constructor
    · rintro ⟨v, hv⟩
      obtain ⟨pre, g, post, hs, hb, _⟩ := (hmain k v).mp hv
      exact ⟨g, by rw [hs]; simp, v, hb⟩
    · intro h
      obtain ⟨pre, g, post, v, hs, hb, hn⟩ := exists_last_binding _ k h
      exact ⟨v, (hmain k v).mpr ⟨pre, g, post, hs, hb, hn⟩⟩
  · intro k
    have h1 : stringsSplit (str "key1=value1,key2=value2") (str ",") =
        [str "key1=value1", str "key2=value2"] := by decide
    have h2 : stringsSplitN (str "key1=value1") (str "=") 2 = [str "key1", str "value1"] := by
      decide
    have h3 : stringsSplitN (str "key2=value2") (str "=") 2 = [str "key2", str "value2"] := by
      decide
    have hne : str "key1" ≠ str "key2" := by decide
    simp only [parseEnvVars, h1, List.foldl_cons, List.foldl_nil, h2, h3, GoMap.set]
    by_cases hk1 : k = str "key1"
    · simp [hk1, hne]
    · simp [hk1]

/-- C13 at a concrete input: `a=1,b,a=2=3` has the segments `a=1`, `b` and
`a=2=3`. -/
theorem parseEnvVars_spec_witness :
    (∀ k, (∃ v, parseEnvVars (str "a=1,b,a=2=3") k = some v) ↔
      ∃ g ∈ [str "a=1", str "b", str "a=2=3"], ∃ v, bindsKey 61 g k v) ∧
    (∀ k v, parseEnvVars (str "a=1,b,a=2=3") k = some v ↔
      ∃ pre g post, [str "a=1", str "b", str "a=2=3"] = pre ++ g :: post ∧
        bindsKey 61 g k v ∧ ∀ g2 ∈ post, ∀ v2, ¬ bindsKey 61 g2 k v2) :=
  (parseEnvVars_spec (str "a=1,b,a=2=3")).2.1 [str "a=1", str "b", str "a=2=3"]
    ⟨by decide, by decide, by decide⟩

end Persys
